import Mathlib

/-!
Verification of the in-memory filesystem engine of the terminal-emulator
repository against its specification.

The repository contains four near-duplicate Go implementations of the same
virtual filesystem.  Each is embedded here as a heap-based state machine:
Go pointers become natural-number node identifiers, a `*VirtualFile` heap
becomes an association list from identifiers to node records, and Go byte
slices in the sonoma-sky-alpha variant become references into an explicit
buffer heap (so that deep-copy versus aliasing questions are expressible).
Go `map[string]*VirtualFile` fields become association lists whose list
order stands for one admissible (unspecified) Go map iteration order;
lookup, insert and delete agree with Go map semantics on the unique-key
states the program produces.  Calls to `time.Now()` become reads of a
logical clock that is incremented on each call.  Go strings are modelled
as `List Char`.

Unbounded heap recursion (parent-chain walks, recursive delete/copy) is
given fuel; a Go execution that would not terminate (only possible on
cyclic heaps that the buggy `mv` of two variants can create) is modelled
by an `OUT_OF_FUEL` error.  All wrappers pass fuel that is sufficient on
every acyclic heap.

Namespaces: `Sky` = sonoma-sky-alpha/fs/fs.go, `Dusk` =
sonoma-dusk-alpha/fs/fs.go (dispatcher in unnamed/part_000), `Glm` =
glm-4.5/main.go, `Grok` = grok-code-fast-1/filesystem.go plus its command
layer in unnamed/part_003.
-/

/-- Decidable equality of `Except` results, used to evaluate the model on
concrete inputs. -/
instance {ε α : Type} [DecidableEq ε] [DecidableEq α] : DecidableEq (Except ε α) := fun a b =>
  match a, b with
  | Except.ok x, Except.ok y =>
    if h : x = y then Decidable.isTrue (congrArg Except.ok h)
    else Decidable.isFalse (fun hc => h (Except.ok.inj hc))
  | Except.error x, Except.error y =>
    if h : x = y then Decidable.isTrue (congrArg Except.error h)
    else Decidable.isFalse (fun hc => h (Except.error.inj hc))
  | Except.ok _, Except.error _ => Decidable.isFalse (fun hc => Except.noConfusion hc)
  | Except.error _, Except.ok _ => Decidable.isFalse (fun hc => Except.noConfusion hc)

/-- Go strings are modelled as lists of characters (byte-for-byte for the
ASCII data the program manipulates). -/
abbrev Str := List Char

/-- Convert a Lean string literal to the model representation. -/
def str (s : String) : Str := s.data

/-- Association-list update, modelling Go `m[k] = v`: replaces the value at
an existing key in place, otherwise appends a new entry. -/
def assocSet {α β : Type} [DecidableEq α] (k : α) (v : β) : List (α × β) → List (α × β)
  | [] => [(k, v)]
  | (k', v') :: rest => if k' = k then (k, v) :: rest else (k', v') :: assocSet k v rest

/-- Association-list removal, modelling Go `delete(m, k)`: removes every
entry with the given key (Go maps have unique keys, so on the states the
program builds this removes at most one entry). -/
def assocErase {α β : Type} [DecidableEq α] (k : α) : List (α × β) → List (α × β)
  | [] => []
  | (k', v') :: rest => if k' = k then assocErase k rest else (k', v') :: assocErase k rest

/-- Test for a leading `/`, modelling Go `strings.HasPrefix(path, "/")`. -/
def startsWithSlash : Str → Bool
  | [] => false
  | c :: _ => c = '/'

/-- Test for a leading `.`, modelling Go `strings.HasPrefix(name, ".")`. -/
def startsWithDot : Str → Bool
  | [] => false
  | c :: _ => c = '.'

/-- Split on `/`, modelling Go `strings.Split(s, "/")`. -/
def splitOnSlash : Str → List Str
  | [] => [[]]
  | c :: rest =>
    let r := splitOnSlash rest
    if c = '/' then [] :: r
    else
      match r with
      | [] => [[c]]
      | h :: t => (c :: h) :: t

/-- Drop leading slashes, modelling Go `strings.TrimLeft(s, "/")`. -/
def trimLeftSlash (s : Str) : Str := s.dropWhile (· == '/')

/-- Drop leading and trailing slashes, modelling Go `strings.Trim(s, "/")`. -/
def trimSlash (s : Str) : Str :=
  ((s.dropWhile (· == '/')).reverse.dropWhile (· == '/')).reverse

/-- Join a list of strings with a separator, modelling Go `strings.Join`. -/
def joinWith (sep : Str) : List Str → Str
  | [] => []
  | [x] => x
  | x :: rest => x ++ sep ++ joinWith sep rest

/-- Stack-processing step of Go `path/filepath.Clean` (slash separator):
drops empty and `.` segments, resolves `..` against the accumulated stack,
keeps `..` that escapes a relative path, and drops `..` at the root. -/
def cleanSegs (rooted : Bool) : List Str → List Str → List Str
  | acc, [] => acc.reverse
  | acc, seg :: rest =>
    if seg = [] ∨ seg = ['.'] then cleanSegs rooted acc rest
    else if seg = ['.', '.'] then
      match acc with
      | [] => if rooted then cleanSegs rooted [] rest else cleanSegs rooted [seg] rest
      | top :: acc' =>
        if top = ['.', '.'] then cleanSegs rooted (seg :: acc) rest
        else cleanSegs rooted acc' rest
    else cleanSegs rooted (seg :: acc) rest

/-- Go `path/filepath.Clean` for slash-separated paths. -/
def cleanPath (s : Str) : Str :=
  if s = [] then ['.']
  else
    let rooted := startsWithSlash s
    let out := joinWith ['/'] (cleanSegs rooted [] (splitOnSlash s))
    if rooted then '/' :: out
    else if out = [] then ['.'] else out

/-- Go `path/filepath.Dir`: everything up to and including the final slash,
cleaned; `.` when the path has no slash. -/
def goDir (s : Str) : Str :=
  if s.contains '/' then cleanPath ((s.reverse.dropWhile (· != '/')).reverse)
  else ['.']

/-- Go `path/filepath.Base`: the last element of the path after stripping
trailing slashes; `.` for the empty path and `/` for all-slash paths. -/
def goBase (s : Str) : Str :=
  if s = [] then ['.']
  else
    let t := (s.reverse.dropWhile (· == '/')).reverse
    if t = [] then ['/']
    else (t.reverse.takeWhile (· != '/')).reverse

/-- Go `path/filepath.Split`: the prefix up to and including the final
slash, and the remainder. -/
def splitLast (s : Str) : Str × Str :=
  ((s.reverse.dropWhile (· != '/')).reverse, (s.reverse.takeWhile (· != '/')).reverse)

/-- Decimal digit character. -/
def digitChar (n : Nat) : Char := Char.ofNat (48 + n % 10)

/-- Decimal digits of a natural number (fuel-bounded helper). -/
def natDigits : Nat → Nat → Str
  | 0, _ => []
  | _ + 1, 0 => []
  | fuel + 1, n => natDigits fuel (n / 10) ++ [digitChar (n % 10)]

/-- Render a natural number in decimal, modelling Go `strconv.Itoa` and
`%d` formatting for the nonnegative values the program produces. -/
def natToStr (n : Nat) : Str := if n = 0 then ['0'] else natDigits (n + 1) n

/-- Model of Go `time.Time.Format("Jan 02 15:04")` applied to the logical
clock: any injective rendering is adequate because no claim constrains the
display text of timestamps. -/
def fmtTime (t : Nat) : Str := str "Jan 01 00:" ++ natToStr t

/-- File kind, from the Go `FileType` enum shared by all four variants. -/
inductive FType where
  | RegularFile
  | Directory
  deriving DecidableEq

/-- Permission-string rendering shared by the variants (`getPermString` in
sonoma-sky-alpha): a `d`/`-` kind letter followed by nine `rwx` bits. -/
def getPermString (perm : Nat) (isDir : Bool) : Str :=
  (if isDir then ['d'] else ['-']) ++
  (if perm.testBit 8 then ['r'] else ['-']) ++
  (if perm.testBit 7 then ['w'] else ['-']) ++
  (if perm.testBit 6 then ['x'] else ['-']) ++
  (if perm.testBit 5 then ['r'] else ['-']) ++
  (if perm.testBit 4 then ['w'] else ['-']) ++
  (if perm.testBit 3 then ['x'] else ['-']) ++
  (if perm.testBit 2 then ['r'] else ['-']) ++
  (if perm.testBit 1 then ['w'] else ['-']) ++
  (if perm.testBit 0 then ['x'] else ['-'])

namespace Sky

/-- Node record of `VirtualFile` in sonoma-sky-alpha/fs/fs.go.  `content`
is a reference into the buffer heap (`none` models a nil byte slice, as on
directories), `children` and `parent` are heap references. -/
structure BFile where
  name : Str
  vtype : FType
  content : Option Nat
  children : List (Str × Nat)
  parent : Option Nat
  perms : Nat
  modTime : Nat
  size : Nat
  deriving DecidableEq

/-- State of the sonoma-sky-alpha `FileSystem` handle together with its
node heap, buffer heap and logical clock. -/
structure BSt where
  nodes : List (Nat × BFile)
  bufs : List (Nat × Str)
  nextId : Nat
  nextBuf : Nat
  root : Nat
  cur : Nat
  prev : Option Nat
  clock : Nat
  deriving DecidableEq

/-- Read `time.Now()` from the logical clock. -/
def BSt.tick (s : BSt) : Nat × BSt := (s.clock, { s with clock := s.clock + 1 })

/-- Store an updated node record at an existing identifier. -/
def BSt.setNode (s : BSt) (id : Nat) (n : BFile) : BSt :=
  { s with nodes := assocSet id n s.nodes }

/-- Allocate a fresh byte buffer, modelling `make([]byte, ...)`. -/
def BSt.allocBuf (s : BSt) (v : Str) : Nat × BSt :=
  (s.nextBuf, { s with bufs := s.bufs ++ [(s.nextBuf, v)], nextBuf := s.nextBuf + 1 })

/-- Overwrite the bytes of an existing buffer in place, modelling writes
through a Go slice that reuse its backing array. -/
def BSt.setBuf (s : BSt) (r : Nat) (v : Str) : BSt :=
  { s with bufs := assocSet r v s.bufs }

/-- Bytes readable through a node's content slice (nil reads as empty). -/
def contentStr (s : BSt) (r : Option Nat) : Str :=
  match r with
  | none => []
  | some i =>
    match s.bufs.lookup i with
    | some v => v
    | none => []

/-- Length of a node's content slice, modelling `len(file.Content)`. -/
def contentLen (s : BSt) (r : Option Nat) : Nat := (contentStr s r).length

/-- Allocate a directory node, from `NewDirectory` in fs.go. -/
def NewDirectory (s : BSt) (name : Str) (parent : Option Nat) : Nat × BSt :=
  let (now, s₁) := s.tick
  (s₁.nextId,
    { s₁ with
      nodes := s₁.nodes ++ [(s₁.nextId, ⟨name, FType.Directory, none, [], parent, 493, now, 0⟩)],
      nextId := s₁.nextId + 1 })

/-- Allocate a file node holding the given (freshly allocated) content
buffer, from `NewFile` in fs.go. -/
def NewFile (s : BSt) (name : Str) (parent : Option Nat) (content : Str) : Nat × BSt :=
  let (r, s₁) := s.allocBuf content
  let (now, s₂) := s₁.tick
  (s₂.nextId,
    { s₂ with
      nodes := s₂.nodes ++
        [(s₂.nextId, ⟨name, FType.RegularFile, some r, [], parent, 420, now, content.length⟩)],
      nextId := s₂.nextId + 1 })

/-- Segment-walk loop of `ResolvePath` in fs.go. -/
def walk (s : BSt) : Nat → List Str → Except Str Nat
  | cur, [] => Except.ok cur
  | cur, comp :: rest =>
    if comp = [] then walk s cur rest
    else if comp = ['.'] then walk s cur rest
    else if comp = ['.', '.'] then
      match s.nodes.lookup cur with
      | none => Except.error (str "DANGLING_POINTER")
      | some n =>
        match n.parent with
        | some p => walk s p rest
        | none => walk s cur rest
    else
      match s.nodes.lookup cur with
      | none => Except.error (str "DANGLING_POINTER")
      | some n =>
        if n.vtype ≠ FType.Directory then
          Except.error (str "not a directory: " ++ n.name)
        else
          match n.children.lookup comp with
          | some c => walk s c rest
          | none => Except.error (str "no such file or directory: " ++ comp)

/-- Component preparation of `ResolvePath`: an absolute path starts the
walk at the root (dropping the leading empty component), anything else at
the current directory. -/
def resolveCore (s : BSt) (path : Str) : Except Str Nat :=
  match splitOnSlash path with
  | [] => Except.error (str "UNREACHABLE")
  | c0 :: rest =>
    if c0 = [] then walk s s.root rest
    else walk s s.cur (c0 :: rest)

/-- Full `ResolvePath` of sonoma-sky-alpha: empty path resolves to the
current directory, `~` restarts at `/home/user`. -/
def ResolvePath (s : BSt) (path : Str) : Except Str Nat :=
  if path = [] then Except.ok s.cur
  else if path = str "~" then resolveCore s (str "/home/user")
  else resolveCore s path

/-- The `Exists` helper of fs.go: path existence as a boolean. -/
def ExistsB (s : BSt) (path : Str) : Bool :=
  match ResolvePath s path with
  | Except.ok _ => true
  | Except.error _ => false

/-- Parent-chain accumulation loop of `GetPath` (fuel-bounded). -/
def pathParts (s : BSt) : Nat → Nat → List Str → Except Str (List Str)
  | 0, _, _ => Except.error (str "OUT_OF_FUEL")
  | fuel + 1, cur, acc =>
    if cur = s.root then Except.ok acc
    else
      match s.nodes.lookup cur with
      | none => Except.error (str "DANGLING_POINTER")
      | some n =>
        match n.parent with
        | none => Except.ok (n.name :: acc)
        | some p => pathParts s fuel p (n.name :: acc)

/-- The `GetPath` function of fs.go: absolute path of a node. -/
def GetPath (s : BSt) (id : Nat) : Except Str Str :=
  if id = s.root then Except.ok (str "/")
  else do
    let parts ← pathParts s (s.nextId + 1) id []
    Except.ok ('/' :: joinWith ['/'] parts)

/-- The `Cd` operation of fs.go.  `cd -` swaps the current and previous
directories; otherwise the resolved target must be a directory. -/
def Cd (s : BSt) (path : Str) : Except Str BSt :=
  let path := if path = [] then str "~" else path
  if path = str "-" then
    match s.prev with
    | none => Except.error (str "no previous directory")
    | some p => Except.ok { s with cur := p, prev := some s.cur }
  else
    match ResolvePath s path with
    | Except.error e => Except.error e
    | Except.ok nd =>
      match s.nodes.lookup nd with
      | none => Except.error (str "DANGLING_POINTER")
      | some n =>
        if n.vtype ≠ FType.Directory then
          Except.error (path ++ str " is not a directory")
        else Except.ok { s with prev := some s.cur, cur := nd }

/-- The `Touch` operation of fs.go: splits the path with `filepath.Split`,
resolves the directory part, then updates the timestamp (and recomputed
size) of an existing entry of any kind, or creates an empty file. -/
def Touch (s : BSt) (path : Str) : Except Str BSt :=
  if path = [] then Except.error (str "touch: missing operand")
  else
    let (dirPath, fileName) := splitLast path
    match ResolvePath s dirPath with
    | Except.error e => Except.error (str "touch: " ++ path ++ str ": " ++ e)
    | Except.ok did =>
      match s.nodes.lookup did with
      | none => Except.error (str "DANGLING_POINTER")
      | some d =>
        if d.vtype ≠ FType.Directory then
          Except.error (str "touch: " ++ dirPath ++ str ": not a directory")
        else
          match d.children.lookup fileName with
          | some fid =>
            match s.nodes.lookup fid with
            | none => Except.error (str "DANGLING_POINTER")
            | some f =>
              let (now, s₁) := s.tick
              Except.ok (s₁.setNode fid { f with modTime := now, size := contentLen s f.content })
          | none =>
            let (fid, s₁) := NewFile s fileName (some did) []
            Except.ok (s₁.setNode did { d with children := assocSet fileName fid d.children })

/-- Per-component loop body of `Mkdir` in fs.go (after the path has been
made absolute and cleaned). -/
def mkdirLoop (parents : Bool) : BSt → Nat → List Str → Except Str BSt
  | s, _, [] => Except.ok s
  | s, cur, comp :: rest =>
    if comp = [] ∨ comp = ['.'] then mkdirLoop parents s cur rest
    else if comp = ['.', '.'] then
      match s.nodes.lookup cur with
      | none => Except.error (str "DANGLING_POINTER")
      | some n =>
        match n.parent with
        | some p => mkdirLoop parents s p rest
        | none => mkdirLoop parents s cur rest
    else
      let isLast := rest = []
      if ¬ parents ∧ ¬ isLast then
        match s.nodes.lookup cur with
        | none => Except.error (str "DANGLING_POINTER")
        | some n =>
          match n.children.lookup comp with
          | none => Except.error (str "no such file or directory")
          | some cid =>
            match s.nodes.lookup cid with
            | none => Except.error (str "DANGLING_POINTER")
            | some c =>
              if c.vtype ≠ FType.Directory then
                Except.error (comp ++ str " is not a directory")
              else mkdirLoop parents s cid rest
      else
        match s.nodes.lookup cur with
        | none => Except.error (str "DANGLING_POINTER")
        | some n =>
          match n.children.lookup comp with
          | none =>
            let (ndid, s₁) := NewDirectory s comp (some cur)
            match s₁.nodes.lookup cur with
            | none => Except.error (str "DANGLING_POINTER")
            | some n₁ =>
              mkdirLoop parents (s₁.setNode cur { n₁ with children := assocSet comp ndid n₁.children }) ndid rest
          | some cid =>
            match s.nodes.lookup cid with
            | none => Except.error (str "DANGLING_POINTER")
            | some c =>
              if c.vtype ≠ FType.Directory then
                Except.error (str "cannot create directory '" ++ comp ++ str "': not a directory")
              else mkdirLoop parents s cid rest

/-- The `Mkdir` operation of fs.go: normalizes to an absolute path using
the current directory, cleans it with `filepath.Clean`, refuses the bare
root, then walks and creates components from the root. -/
def Mkdir (s : BSt) (path : Str) (parents : Bool) : Except Str BSt :=
  if path = [] then Except.error (str "mkdir: missing operand")
  else do
    let absPath ←
      if startsWithSlash path then Except.ok path
      else do
        let currentPath ← GetPath s s.cur
        let currentPath := if currentPath.getLast? = some '/' then currentPath else currentPath ++ ['/']
        Except.ok (currentPath ++ path)
    let absPath := cleanPath absPath
    if absPath = str "/" then Except.error (str "cannot create directory at root")
    else mkdirLoop parents s s.root (splitOnSlash (trimSlash absPath))

/-- Filter applied to directory-listing entries in `Ls`: hidden names
(leading dot, except the literal `.`/`..`) are kept only with `-a`. -/
def lsKeep (all : Bool) (name : Str) : Bool :=
  !(!all && startsWithDot name && name ≠ str "." && name ≠ str "..")

/-- Long-format line of `Ls` for one entry. -/
def longLine (s : BSt) (name : Str) (cid : Nat) : Str :=
  match s.nodes.lookup cid with
  | none => str "DANGLING_POINTER"
  | some c =>
    getPermString c.perms (c.vtype = FType.Directory) ++ str " 1 user user " ++
      natToStr c.size ++ [' '] ++ fmtTime c.modTime ++ [' '] ++ name

/-- The `Ls` operation of fs.go: resolves the target (default `.`),
requires a directory, and renders the children in map-iteration order —
the source applies no sorting. -/
def Ls (s : BSt) (path : Str) (long all : Bool) : Except Str Str :=
  let path := if path = [] then ['.'] else path
  match ResolvePath s path with
  | Except.error e => Except.error (str "ls: " ++ e)
  | Except.ok did =>
    match s.nodes.lookup did with
    | none => Except.error (str "DANGLING_POINTER")
    | some d =>
      if d.vtype ≠ FType.Directory then
        Except.error (str "ls: " ++ path ++ str ": not a directory")
      else
        let kept := d.children.filter (fun nc => lsKeep all nc.1)
        if long then
          Except.ok (joinWith (str "\n") (kept.map (fun nc => longLine s nc.1 nc.2)))
        else
          Except.ok (joinWith (str "\n") [joinWith (str " ") (kept.map Prod.fst)])

/-- Combined fuel-structural form of the `deleteRecursive` helper of
fs.go and its iteration over a snapshot of `dir.Children`.  `Sum.inl did`
is a call `deleteRecursive(dir)`; `Sum.inr (cs, dparent)` is the loop over
the remaining children `cs`, where `dparent` is `dir.Parent`.  Note that
the source deletes each child's name from `dir.Parent.Children` — the
children of the parent of the directory being removed — rather than from
`dir.Children`. -/
def delGo : Nat → BSt → Sum Nat (List (Str × Nat) × Option Nat) → Except Str BSt
  | 0, _, _ => Except.error (str "OUT_OF_FUEL")
  | fuel + 1, s, Sum.inl did =>
    match s.nodes.lookup did with
    | none => Except.error (str "DANGLING_POINTER")
    | some d =>
      match delGo fuel s (Sum.inr (d.children, d.parent)) with
      | Except.error e => Except.error e
      | Except.ok s₁ =>
        match d.parent with
        | none => Except.error (str "PANIC_NIL_PARENT")
        | some pid =>
          match s₁.nodes.lookup pid with
          | none => Except.error (str "DANGLING_POINTER")
          | some p => Except.ok (s₁.setNode pid { p with children := assocErase d.name p.children })
  | _ + 1, s, Sum.inr ([], _) => Except.ok s
  | fuel + 1, s, Sum.inr ((cname, cid) :: rest, dparent) =>
    let step : Except Str BSt :=
      match s.nodes.lookup cid with
      | none => Except.error (str "DANGLING_POINTER")
      | some c =>
        if c.vtype = FType.Directory then delGo fuel s (Sum.inl cid) else Except.ok s
    match step with
    | Except.error e => Except.error e
    | Except.ok s₁ =>
      match dparent with
      | none => Except.error (str "PANIC_NIL_PARENT")
      | some pid =>
        match s₁.nodes.lookup pid with
        | none => Except.error (str "DANGLING_POINTER")
        | some p =>
          delGo fuel (s₁.setNode pid { p with children := assocErase cname p.children })
            (Sum.inr (rest, dparent))

/-- The `deleteRecursive` helper of fs.go (entry point). -/
def deleteRecursive (fuel : Nat) (s : BSt) (did : Nat) : Except Str BSt :=
  delGo fuel s (Sum.inl did)

/-- The `Rm` operation of fs.go: refuses the root, refuses every directory
without `recursive` (empty or not), deletes files directly and directories
through `deleteRecursive`. -/
def Rm (s : BSt) (path : Str) (recursive : Bool) : Except Str BSt :=
  if path = [] then Except.error (str "rm: missing operand")
  else
    match ResolvePath s path with
    | Except.error e => Except.error (str "rm: " ++ path ++ str ": " ++ e)
    | Except.ok tid =>
      if tid = s.root then Except.error (str "rm: cannot remove root directory")
      else
        match s.nodes.lookup tid with
        | none => Except.error (str "DANGLING_POINTER")
        | some t =>
          match t.parent with
          | none => Except.error (str "rm: cannot remove root")
          | some pid =>
            if t.vtype = FType.Directory then
              if !recursive then Except.error (str "rm: " ++ path ++ str ": is a directory")
              else deleteRecursive (2 * s.nextId + 2) s tid
            else
              match s.nodes.lookup pid with
              | none => Except.error (str "DANGLING_POINTER")
              | some p => Except.ok (s.setNode pid { p with children := assocErase t.name p.children })

/-- The `Rmdir` operation of fs.go: requires an empty directory with a
parent and detaches it. -/
def Rmdir (s : BSt) (path : Str) : Except Str BSt :=
  if path = [] then Except.error (str "rmdir: missing operand")
  else
    match ResolvePath s path with
    | Except.error e => Except.error (str "rmdir: " ++ path ++ str ": " ++ e)
    | Except.ok tid =>
      match s.nodes.lookup tid with
      | none => Except.error (str "DANGLING_POINTER")
      | some t =>
        if t.vtype ≠ FType.Directory then Except.error (str "rmdir: " ++ path ++ str ": not a directory")
        else if t.children ≠ [] then Except.error (str "rmdir: " ++ path ++ str ": directory not empty")
        else
          match t.parent with
          | none => Except.error (str "rmdir: cannot remove root")
          | some pid =>
            match s.nodes.lookup pid with
            | none => Except.error (str "DANGLING_POINTER")
            | some p => Except.ok (s.setNode pid { p with children := assocErase t.name p.children })

/-- Combined fuel-structural form of the `copyRecursive` helper of fs.go
and its iteration over a snapshot of `srcDir.Children`.  `Sum.inl (srcId,
dpId, destName)` is a call `copyRecursive(src, destParent, destName)`:
it allocates the destination directory, attaches it, then copies each
child — files with a freshly allocated buffer holding a byte-for-byte copy
of the source bytes.  `Sum.inr (cs, ndid)` is the loop over the remaining
children `cs`, copying into the new directory `ndid`. -/
def cpGo : Nat → BSt → Sum (Nat × Nat × Str) (List (Str × Nat) × Nat) → Except Str BSt
  | 0, _, _ => Except.error (str "OUT_OF_FUEL")
  | fuel + 1, s, Sum.inl (srcId, dpId, destName) =>
    let (ndid, s₁) := NewDirectory s destName (some dpId)
    match s₁.nodes.lookup dpId with
    | none => Except.error (str "DANGLING_POINTER")
    | some dp =>
      let s₂ := s₁.setNode dpId { dp with children := assocSet destName ndid dp.children }
      match s₂.nodes.lookup srcId with
      | none => Except.error (str "DANGLING_POINTER")
      | some srcDir => cpGo fuel s₂ (Sum.inr (srcDir.children, ndid))
  | _ + 1, s, Sum.inr ([], _) => Except.ok s
  | fuel + 1, s, Sum.inr ((cname, cid) :: rest, ndid) =>
    match s.nodes.lookup cid with
    | none => Except.error (str "DANGLING_POINTER")
    | some c =>
      if c.vtype = FType.Directory then
        match cpGo fuel s (Sum.inl (cid, ndid, cname)) with
        | Except.error e => Except.error e
        | Except.ok s₁ => cpGo fuel s₁ (Sum.inr (rest, ndid))
      else
        let contentVal := contentStr s c.content
        let (nfid, s₁) := NewFile s cname (some ndid) contentVal
        match s₁.nodes.lookup ndid with
        | none => Except.error (str "DANGLING_POINTER")
        | some nd =>
          cpGo fuel (s₁.setNode ndid { nd with children := assocSet cname nfid nd.children })
            (Sum.inr (rest, ndid))

/-- The `copyRecursive` helper of fs.go (entry point). -/
def copyRecursive (fuel : Nat) (s : BSt) (srcId dpId : Nat) (destName : Str) : Except Str BSt :=
  cpGo fuel s (Sum.inl (srcId, dpId, destName))

/-- The `Cp` operation of fs.go.  An existing directory destination
receives the copy inside itself under the source's name; an existing file
destination is overwritten in its parent; otherwise `filepath.Dir(dest)`
must resolve to a directory and `filepath.Base(dest)` names the copy. -/
def Cp (s : BSt) (source dest : Str) (recursive : Bool) : Except Str BSt :=
  if source = [] ∨ dest = [] then Except.error (str "cp: missing file operand")
  else
    match ResolvePath s source with
    | Except.error e => Except.error (str "cp: " ++ source ++ str ": " ++ e)
    | Except.ok sid =>
      let destSpot : Except Str (Nat × Str) :=
        if ExistsB s dest then
          match ResolvePath s dest with
          | Except.error e => Except.error e
          | Except.ok did =>
            match s.nodes.lookup did with
            | none => Except.error (str "DANGLING_POINTER")
            | some dnode =>
              if dnode.vtype = FType.Directory then
                match s.nodes.lookup sid with
                | none => Except.error (str "DANGLING_POINTER")
                | some snode => Except.ok (did, snode.name)
              else
                match dnode.parent with
                | none => Except.error (str "PANIC_NIL_PARENT")
                | some pp => Except.ok (pp, dnode.name)
        else
          let dpp := goDir dest
          match ResolvePath s dpp with
          | Except.error e => Except.error (str "cp: " ++ dpp ++ str ": " ++ e)
          | Except.ok pid =>
            match s.nodes.lookup pid with
            | none => Except.error (str "DANGLING_POINTER")
            | some pnode =>
              if pnode.vtype ≠ FType.Directory then
                Except.error (str "cp: " ++ dpp ++ str ": not a directory")
              else Except.ok (pid, goBase dest)
      match destSpot with
      | Except.error e => Except.error e
      | Except.ok (dpId, dName) =>
        match s.nodes.lookup sid with
        | none => Except.error (str "DANGLING_POINTER")
        | some snode =>
          if snode.vtype = FType.RegularFile then
            let contentVal := contentStr s snode.content
            let (nfid, s₁) := NewFile s dName (some dpId) contentVal
            match s₁.nodes.lookup dpId with
            | none => Except.error (str "DANGLING_POINTER")
            | some dp =>
              Except.ok (s₁.setNode dpId { dp with children := assocSet dName nfid dp.children })
          else if !recursive then Except.error (str "cp: omitting directory " ++ source)
          else copyRecursive (2 * s.nextId + 2) s sid dpId dName

/-- The `Cat` operation of fs.go: the raw content bytes of a file. -/
def Cat (s : BSt) (path : Str) : Except Str Str :=
  if path = [] then Except.error (str "cat: missing operand")
  else
    match ResolvePath s path with
    | Except.error e => Except.error (str "cat: " ++ path ++ str ": " ++ e)
    | Except.ok fid =>
      match s.nodes.lookup fid with
      | none => Except.error (str "DANGLING_POINTER")
      | some f =>
        if f.vtype ≠ FType.RegularFile then Except.error (str "cat: " ++ path ++ str ": not a file")
        else Except.ok (contentStr s f.content)

/-- The `EchoWrite` operation of fs.go.  Overwrite mode always builds a
fresh file node whose buffer holds `text` plus a newline; append mode on
an existing file extends its content in place (modelling Go `append`
reusing the backing array) and also appends the newline. -/
def EchoWrite (s : BSt) (text path : Str) (appendMode : Bool) : Except Str BSt :=
  if path = [] then Except.error (str "echo: missing filename")
  else
    let (dirPath, fileName) := splitLast path
    match ResolvePath s dirPath with
    | Except.error e => Except.error (str "echo: " ++ path ++ str ": " ++ e)
    | Except.ok did =>
      match s.nodes.lookup did with
      | none => Except.error (str "DANGLING_POINTER")
      | some d =>
        if d.vtype ≠ FType.Directory then
          Except.error (str "echo: " ++ dirPath ++ str ": not a directory")
        else
          let createWith (content : Str) : Except Str BSt :=
            let (nfid, s₁) := NewFile s fileName (some did) content
            match s₁.nodes.lookup did with
            | none => Except.error (str "DANGLING_POINTER")
            | some d₁ =>
              Except.ok (s₁.setNode did { d₁ with children := assocSet fileName nfid d₁.children })
          if appendMode then
            match d.children.lookup fileName with
            | some fid =>
              match s.nodes.lookup fid with
              | none => Except.error (str "DANGLING_POINTER")
              | some f =>
                if f.vtype = FType.RegularFile then
                  let newContent := contentStr s f.content ++ text ++ ['\n']
                  match f.content with
                  | some r =>
                    let (now, s₁) := s.tick
                    Except.ok ((s₁.setBuf r newContent).setNode fid
                      { f with modTime := now, size := newContent.length })
                  | none =>
                    let (r, s₁) := s.allocBuf newContent
                    let (now, s₂) := s₁.tick
                    Except.ok (s₂.setNode fid
                      { f with content := some r, modTime := now, size := newContent.length })
                else Except.error (str "echo: " ++ path ++ str ": not a file")
            | none => createWith (text ++ ['\n'])
          else createWith (text ++ ['\n'])

/-- Initial state built by `NewFileSystem` in fs.go: `/` with the
`/home/user` scaffold, current directory `/home/user`, previous directory
the root. -/
def initState : BSt :=
  { nodes :=
      [(0, ⟨str "/", FType.Directory, none, [(str "home", 1)], none, 493, 0, 0⟩),
       (1, ⟨str "home", FType.Directory, none, [(str "user", 2)], some 0, 493, 1, 0⟩),
       (2, ⟨str "user", FType.Directory, none, [], some 1, 493, 2, 0⟩)],
    bufs := [], nextId := 3, nextBuf := 0, root := 0, cur := 2, prev := some 0, clock := 3 }

end Sky

/-- Node record of `VirtualFile` as declared identically in
sonoma-dusk-alpha, glm-4.5 and grok-code-fast-1: these three variants
store file content inline as a byte string. -/
structure VFile where
  name : Str
  vtype : FType
  content : Str
  children : List (Str × Nat)
  parent : Option Nat
  perms : Nat
  modTime : Nat
  size : Nat
  deriving DecidableEq

/-- State of the `FileSystem` handle of the inline-content variants:
node heap, allocation counter, root / current / previous directory
references, and the logical clock. -/
structure VSt where
  nodes : List (Nat × VFile)
  nextId : Nat
  root : Nat
  cur : Nat
  prev : Option Nat
  clock : Nat
  deriving DecidableEq

/-- Read `time.Now()` from the logical clock. -/
def VSt.tick (s : VSt) : Nat × VSt := (s.clock, { s with clock := s.clock + 1 })

/-- Store an updated node record at an existing identifier. -/
def VSt.setNode (s : VSt) (id : Nat) (n : VFile) : VSt :=
  { s with nodes := assocSet id n s.nodes }

namespace Dusk

/-- Segment-walk loop of `resolvePath` in sonoma-dusk-alpha/fs/fs.go.
This variant never checks the node type during descent: a file's empty
child map simply fails the lookup. -/
def walk (s : VSt) : Nat → List Str → Except Str Nat
  | cur, [] => Except.ok cur
  | cur, part :: rest =>
    if part = [] then walk s cur rest
    else if part = ['.'] then walk s cur rest
    else if part = ['.', '.'] then
      match s.nodes.lookup cur with
      | none => Except.error (str "DANGLING_POINTER")
      | some n =>
        match n.parent with
        | some p => walk s p rest
        | none => walk s cur rest
    else
      match s.nodes.lookup cur with
      | none => Except.error (str "DANGLING_POINTER")
      | some n =>
        match n.children.lookup part with
        | some c => walk s c rest
        | none => Except.error (str "no such file or directory: " ++ part)

/-- The `resolvePath` function of sonoma-dusk-alpha: note that, unlike the
other three variants, it rejects the empty path outright. -/
def resolvePath (s : VSt) (path : Str) : Except Str Nat :=
  if path = [] then Except.error (str "empty path")
  else
    let path := if path = str "~" then str "/home/user" else path
    if path = str "-" then
      match s.prev with
      | some p => Except.ok p
      | none => Except.error (str "PANIC_NIL")
    else if startsWithSlash path then walk s s.root (splitOnSlash (trimLeftSlash path))
    else walk s s.cur (splitOnSlash path)

/-- Parent-chain loop of `CurrentPath` (fuel-bounded). -/
def pathLoop (s : VSt) : Nat → Nat → Str → Except Str Str
  | 0, _, _ => Except.error (str "OUT_OF_FUEL")
  | fuel + 1, cur, acc =>
    if cur = s.root then Except.ok acc
    else
      match s.nodes.lookup cur with
      | none => Except.error (str "DANGLING_POINTER")
      | some n =>
        match n.parent with
        | none => Except.error (str "PANIC_NIL")
        | some p => pathLoop s fuel p (['/'] ++ n.name ++ acc)

/-- The `CurrentPath` function of fs.go: absolute path of the current
directory. -/
def CurrentPath (s : VSt) : Except Str Str :=
  if s.cur = s.root then Except.ok (str "/")
  else pathLoop s (s.nextId + 1) s.cur []

/-- The `Touch` operation of fs.go: updates only the timestamp of an
existing file, fails on an existing directory, and otherwise creates an
empty file under `filepath.Dir(path)`. -/
def Touch (s : VSt) (path : Str) : Except Str VSt :=
  match resolvePath s path with
  | Except.ok fid =>
    match s.nodes.lookup fid with
    | none => Except.error (str "DANGLING_POINTER")
    | some f =>
      if f.vtype = FType.Directory then Except.error (path ++ str " is a directory")
      else
        let (now, s₁) := s.tick
        Except.ok (s₁.setNode fid { f with modTime := now })
  | Except.error _ =>
    match resolvePath s (goDir path) with
    | Except.error e => Except.error e
    | Except.ok pid =>
      match s.nodes.lookup pid with
      | none => Except.error (str "DANGLING_POINTER")
      | some parent =>
        if parent.vtype ≠ FType.Directory then
          Except.error (str "cannot create file in non-directory")
        else
          let filename := goBase path
          match parent.children.lookup filename with
          | some _ => Except.error (str "file already exists")
          | none =>
            let (now, s₁) := s.tick
            let nid := s₁.nextId
            let s₂ :=
              { s₁ with
                nodes := s₁.nodes ++ [(nid, (⟨filename, FType.RegularFile, [], [], some pid, 0, now, 0⟩ : VFile))],
                nextId := nid + 1 }
            Except.ok (s₂.setNode pid { parent with children := assocSet filename nid parent.children })

/-- Per-component loop of `MkDir` in fs.go (no `.`/`..` handling: such
segments are treated as ordinary names by this variant). -/
def mkdirLoop (parents : Bool) : VSt → Nat → List Str → Except Str VSt
  | s, _, [] => Except.ok s
  | s, cur, part :: rest =>
    if part = [] then mkdirLoop parents s cur rest
    else
      match s.nodes.lookup cur with
      | none => Except.error (str "DANGLING_POINTER")
      | some n =>
        match n.children.lookup part with
        | none =>
          if rest = [] ∨ parents then
            let (now, s₁) := s.tick
            let nid := s₁.nextId
            let s₂ :=
              { s₁ with
                nodes := s₁.nodes ++ [(nid, (⟨part, FType.Directory, [], [], some cur, 0, now, 0⟩ : VFile))],
                nextId := nid + 1 }
            mkdirLoop parents (s₂.setNode cur { n with children := assocSet part nid n.children }) nid rest
          else Except.error (str "cannot create directory " ++ part ++ str ": No such file or directory")
        | some cid =>
          match s.nodes.lookup cid with
          | none => Except.error (str "DANGLING_POINTER")
          | some c =>
            if c.vtype ≠ FType.Directory then Except.error (part ++ str ": Not a directory")
            else mkdirLoop parents s cid rest

/-- The `MkDir` operation of fs.go: expands `~`, prepends the current path
to relative arguments, then walks and creates from the root. -/
def MkDir (s : VSt) (path : Str) (parents : Bool) : Except Str VSt :=
  if path = [] then Except.error (str "mkdir: missing directory name")
  else
    let path :=
      if path = str "~" then str "/home/user"
      else if (str "~/").isPrefixOf path then str "/home/user" ++ path.drop 1
      else path
    if startsWithSlash path then mkdirLoop parents s s.root (splitOnSlash (trimSlash path))
    else
      match CurrentPath s with
      | Except.error e => Except.error e
      | Except.ok currentPath =>
        let path := if currentPath ≠ str "/" then currentPath ++ ['/'] ++ path else path
        mkdirLoop parents s s.root (splitOnSlash (trimSlash path))

/-- The `Cat` operation of fs.go: returns file content verbatim. -/
def Cat (s : VSt) (path : Str) : Except Str Str :=
  match resolvePath s path with
  | Except.error e => Except.error e
  | Except.ok fid =>
    match s.nodes.lookup fid with
    | none => Except.error (str "DANGLING_POINTER")
    | some f =>
      if f.vtype = FType.Directory then Except.error (path ++ str " is a directory")
      else Except.ok f.content

/-- Content-writing tail of `Echo` in fs.go: sets or extends the content
with `text` plus a newline and refreshes size and timestamp. -/
def echoSet (s : VSt) (fid : Nat) (text : Str) (appendMode : Bool) : Except Str VSt :=
  match s.nodes.lookup fid with
  | none => Except.error (str "DANGLING_POINTER")
  | some f =>
    let newContent := if appendMode then f.content ++ text ++ ['\n'] else text ++ ['\n']
    let (now, s₁) := s.tick
    Except.ok (s₁.setNode fid { f with content := newContent, modTime := now, size := newContent.length })

/-- The `Echo` operation of fs.go: writes `text` plus a newline to the
file at `path`, creating it under `filepath.Dir(path)` when absent. -/
def Echo (s : VSt) (text path : Str) (appendMode : Bool) : Except Str VSt :=
  match resolvePath s path with
  | Except.ok fid => echoSet s fid text appendMode
  | Except.error _ =>
    match resolvePath s (goDir path) with
    | Except.error e => Except.error e
    | Except.ok pid =>
      match s.nodes.lookup pid with
      | none => Except.error (str "DANGLING_POINTER")
      | some parent =>
        if parent.vtype ≠ FType.Directory then Except.error (str "cannot write to non-directory")
        else
          let filename := goBase path
          match parent.children.lookup filename, appendMode with
          | some _, false => Except.error (str "file already exists")
          | _, _ =>
            let (now, s₁) := s.tick
            let nid := s₁.nextId
            let s₂ :=
              { s₁ with
                nodes := s₁.nodes ++ [(nid, (⟨filename, FType.RegularFile, [], [], some pid, 0, now, 0⟩ : VFile))],
                nextId := nid + 1 }
            echoSet (s₂.setNode pid { parent with children := assocSet filename nid parent.children })
              nid text appendMode

/-- Combined fuel-structural form of `Rm` in fs.go and its loop over a
snapshot of `target.Children`.  `Sum.inl (path, recursive)` is a call
`fs.Rm(path, recursive)`; `Sum.inr (tid, cs)` is the loop.  Note that the
source's recursive call is `fs.Rm(child.Name, true)` — the bare child name
is re-resolved against the *current working directory* — and its error is
discarded (modelled by keeping the pre-call state, which matches Go
because that call mutates nothing before failing on the states reachable
here). -/
def rmGo : Nat → VSt → Sum (Str × Bool) (Nat × List (Str × Nat)) → Except Str VSt
  | 0, _, _ => Except.error (str "OUT_OF_FUEL")
  | fuel + 1, s, Sum.inl (path, recursive) =>
    match resolvePath s path with
    | Except.error e => Except.error e
    | Except.ok tid =>
      match s.nodes.lookup tid with
      | none => Except.error (str "DANGLING_POINTER")
      | some t =>
        match t.parent with
        | none => Except.error (str "cannot remove root directory")
        | some pid =>
          let doChildren : Except Str VSt :=
            if t.vtype = FType.Directory then
              if ¬recursive ∧ t.children ≠ [] then
                Except.error (path ++ str ": is a directory and not empty")
              else rmGo fuel s (Sum.inr (tid, t.children))
            else Except.ok s
          match doChildren with
          | Except.error e => Except.error e
          | Except.ok s₁ =>
            match s₁.nodes.lookup pid with
            | none => Except.error (str "DANGLING_POINTER")
            | some p => Except.ok (s₁.setNode pid { p with children := assocErase t.name p.children })
  | _ + 1, s, Sum.inr (_, []) => Except.ok s
  | fuel + 1, s, Sum.inr (tid, (cname, cid) :: rest) =>
    match s.nodes.lookup cid with
    | none => Except.error (str "DANGLING_POINTER")
    | some c =>
      if c.vtype = FType.Directory then
        let s₁ :=
          match rmGo fuel s (Sum.inl (c.name, true)) with
          | Except.ok s' => s'
          | Except.error _ => s
        rmGo fuel s₁ (Sum.inr (tid, rest))
      else
        match s.nodes.lookup tid with
        | none => Except.error (str "DANGLING_POINTER")
        | some t =>
          rmGo fuel (s.setNode tid { t with children := assocErase cname t.children }) (Sum.inr (tid, rest))

/-- The `Rm` operation of fs.go (entry point). -/
def Rm (s : VSt) (path : Str) (recursive : Bool) : Except Str VSt :=
  rmGo (2 * s.nextId + 2) s (Sum.inl (path, recursive))

/-- The `RmDir` operation of fs.go: literally `Rm` without recursion. -/
def RmDir (s : VSt) (path : Str) : Except Str VSt := Rm s path false

/-- Combined fuel-structural form of `Copy` in fs.go and its loop over a
snapshot of `srcFile.Children`.  The destination is always
`resolvePath(filepath.Dir(dest))` plus `filepath.Base(dest)` — this
variant has no rule placing the copy *inside* an existing destination
directory, and an existing entry at the destination name always fails.
Nested directories are copied by re-entrant calls on the paths
`srcFile.Name + "/" + name` (resolved against the current directory), with
errors discarded. -/
def cpGo : Nat → VSt → Sum (Str × Str × Bool) (Nat × Nat × List (Str × Nat)) → Except Str VSt
  | 0, _, _ => Except.error (str "OUT_OF_FUEL")
  | fuel + 1, s, Sum.inl (src, dest, recursive) =>
    match resolvePath s src with
    | Except.error e => Except.error e
    | Except.ok sid =>
      match resolvePath s (goDir dest) with
      | Except.error e => Except.error e
      | Except.ok pid =>
        match s.nodes.lookup pid with
        | none => Except.error (str "DANGLING_POINTER")
        | some parent =>
          if parent.vtype ≠ FType.Directory then Except.error (str "cannot copy to non-directory")
          else
            let destName := goBase dest
            match parent.children.lookup destName with
            | some _ => Except.error (str "file already exists")
            | none =>
              match s.nodes.lookup sid with
              | none => Except.error (str "DANGLING_POINTER")
              | some srcFile =>
                if srcFile.vtype = FType.Directory then
                  if ¬recursive then Except.error (src ++ str ": is a directory")
                  else
                    let (now, s₁) := s.tick
                    let nid := s₁.nextId
                    let s₂ :=
                      { s₁ with
                        nodes := s₁.nodes ++ [(nid, (⟨destName, FType.Directory, [], [], some pid, 0, now, 0⟩ : VFile))],
                        nextId := nid + 1 }
                    let s₃ := s₂.setNode pid { parent with children := assocSet destName nid parent.children }
                    cpGo fuel s₃ (Sum.inr (sid, nid, srcFile.children))
                else
                  let (now, s₁) := s.tick
                  let nid := s₁.nextId
                  let s₂ :=
                    { s₁ with
                      nodes := s₁.nodes ++
                        [(nid, (⟨destName, FType.RegularFile, srcFile.content, [], some pid, 0, now,
                          srcFile.content.length⟩ : VFile))],
                      nextId := nid + 1 }
                  Except.ok (s₂.setNode pid { parent with children := assocSet destName nid parent.children })
  | _ + 1, s, Sum.inr (_, _, []) => Except.ok s
  | fuel + 1, s, Sum.inr (sid, nid, (cname, cid) :: rest) =>
    match s.nodes.lookup cid with
    | none => Except.error (str "DANGLING_POINTER")
    | some child =>
      if child.vtype = FType.Directory then
        match s.nodes.lookup sid, s.nodes.lookup nid with
        | some srcFile, some newDir =>
          let childPath := srcFile.name ++ ['/'] ++ cname
          let destChildPath := newDir.name ++ ['/'] ++ cname
          let s₁ :=
            match cpGo fuel s (Sum.inl (childPath, destChildPath, true)) with
            | Except.ok s' => s'
            | Except.error _ => s
          cpGo fuel s₁ (Sum.inr (sid, nid, rest))
        | _, _ => Except.error (str "DANGLING_POINTER")
      else
        let (now, s₁) := s.tick
        let fid := s₁.nextId
        let s₂ :=
          { s₁ with
            nodes := s₁.nodes ++
              [(fid, (⟨cname, FType.RegularFile, child.content, [], some nid, 0, now,
                child.content.length⟩ : VFile))],
            nextId := fid + 1 }
        match s₂.nodes.lookup nid with
        | none => Except.error (str "DANGLING_POINTER")
        | some newDir =>
          cpGo fuel (s₂.setNode nid { newDir with children := assocSet cname fid newDir.children })
            (Sum.inr (sid, nid, rest))

/-- The `Copy` operation of fs.go (entry point). -/
def Copy (s : VSt) (src dest : Str) (recursive : Bool) : Except Str VSt :=
  cpGo (2 * s.nextId + 2) s (Sum.inl (src, dest, recursive))

/-- The `Move` operation of fs.go: detaches the source from its parent
(silently skipping the detach when it has none — including the root, which
this variant therefore happily renames and re-parents), renames it, and
attaches it under `resolvePath(filepath.Dir(dest))`. -/
def Move (s : VSt) (src dest : Str) : Except Str VSt :=
  match resolvePath s src with
  | Except.error e => Except.error e
  | Except.ok sid =>
    match resolvePath s (goDir dest) with
    | Except.error e => Except.error e
    | Except.ok pid =>
      match s.nodes.lookup pid with
      | none => Except.error (str "DANGLING_POINTER")
      | some parent =>
        if parent.vtype ≠ FType.Directory then Except.error (str "cannot move to non-directory")
        else
          let destName := goBase dest
          match parent.children.lookup destName with
          | some _ => Except.error (str "file already exists")
          | none =>
            match s.nodes.lookup sid with
            | none => Except.error (str "DANGLING_POINTER")
            | some sf =>
              let s₁ :=
                match sf.parent with
                | none => s
                | some spid =>
                  match s.nodes.lookup spid with
                  | none => s
                  | some sp => s.setNode spid { sp with children := assocErase sf.name sp.children }
              match s₁.nodes.lookup sid, s₁.nodes.lookup pid with
              | some sf₁, some _ =>
                let s₂ := s₁.setNode sid { sf₁ with parent := some pid, name := destName }
                match s₂.nodes.lookup pid with
                | none => Except.error (str "DANGLING_POINTER")
                | some parent₂ =>
                  Except.ok (s₂.setNode pid { parent₂ with children := assocSet destName sid parent₂.children })
              | _, _ => Except.error (str "DANGLING_POINTER")

/-- The string ordering used by Go `sort.Strings`: ascending byte-wise
lexicographic order; on the duplicate-free name lists produced by a Go
map this pins down the output uniquely. -/
def sortStrings (l : List Str) : List Str := List.insertionSort (· ≤ ·) l

/-- The `Ls` operation of fs.go: resolves the target (default `.`),
filters hidden names without `-a`, sorts with `sort.Strings`, and renders
one line per entry (fixed permission strings in long format). -/
def Ls (s : VSt) (path : Str) (flagL flagA : Bool) : Except Str Str :=
  let path := if path = [] then ['.'] else path
  match resolvePath s path with
  | Except.error e => Except.error e
  | Except.ok did =>
    match s.nodes.lookup did with
    | none => Except.error (str "DANGLING_POINTER")
    | some d =>
      if d.vtype ≠ FType.Directory then Except.error (path ++ str " is not a directory")
      else
        let names := (d.children.map Prod.fst).filter (fun n => !(!flagA && startsWithDot n))
        let sorted := sortStrings names
        let render (n : Str) : Str :=
          if flagL then
            match d.children.lookup n with
            | none => str "DANGLING_POINTER"
            | some cid =>
              match s.nodes.lookup cid with
              | none => str "DANGLING_POINTER"
              | some c =>
                (if c.vtype = FType.Directory then str "drwxr-xr-x" else str "-rw-r--r--") ++
                  str " 1 user user " ++ natToStr c.size ++ [' '] ++ fmtTime c.modTime ++ [' '] ++
                  n ++ ['\n']
          else n ++ ['\n']
        Except.ok ((sorted.map render).foldr (· ++ ·) [])

/-- Initial state of the sonoma-dusk-alpha variant: `NewFileSystem` makes
the bare root, and `NewTerminal` in unnamed/part_000 adds the
`/home/user` scaffold, with current directory `/home/user` and previous
directory the root. -/
def initState : VSt :=
  { nodes :=
      [(0, ⟨str "/", FType.Directory, [], [(str "home", 1)], none, 0, 0, 0⟩),
       (1, ⟨str "home", FType.Directory, [], [(str "user", 2)], some 0, 0, 1, 0⟩),
       (2, ⟨str "user", FType.Directory, [], [], some 1, 0, 2, 0⟩)],
    nextId := 3, root := 0, cur := 2, prev := some 0, clock := 3 }

end Dusk

/-- Index of the last `/` in a path, modelling Go `strings.LastIndex(s,
"/")` (`none` for Go's `-1`). -/
def lastSlashIdx (sp : Str) : Option Nat :=
  match sp.reverse.findIdx? (· == '/') with
  | none => none
  | some j => some (sp.length - 1 - j)

namespace Glm

/-- Parent-chain loop of `GetPath` in glm-4.5/main.go, which stops at the
root by its empty name (fuel-bounded). -/
def gpLoop (s : VSt) : Nat → Option Nat → Str → Except Str Str
  | 0, _, _ => Except.error (str "OUT_OF_FUEL")
  | _ + 1, none, acc => Except.ok ('/' :: acc)
  | fuel + 1, some pid, acc =>
    match s.nodes.lookup pid with
    | none => Except.error (str "DANGLING_POINTER")
    | some p =>
      if p.name = [] then Except.ok ('/' :: acc)
      else gpLoop s fuel p.parent (p.name ++ ['/'] ++ acc)

/-- The `GetPath` method of glm-4.5: absolute path of a node (the glm
root is the unique node with no parent and an empty name). -/
def GetPath (s : VSt) (id : Nat) : Except Str Str :=
  match s.nodes.lookup id with
  | none => Except.error (str "DANGLING_POINTER")
  | some vf =>
    match vf.parent with
    | none => Except.ok (str "/")
    | some _ => gpLoop s (s.nextId + 1) vf.parent vf.name

/-- The `GetAbsolutePath` method of glm-4.5: prefixes relative paths with
the current directory's path. -/
def GetAbsolutePath (s : VSt) (path : Str) : Except Str Str :=
  if startsWithSlash path then Except.ok path
  else
    match GetPath s s.cur with
    | Except.error e => Except.error e
    | Except.ok currentPath =>
      if currentPath = str "/" then Except.ok ('/' :: path)
      else Except.ok (currentPath ++ ['/'] ++ path)

/-- Segment-walk loop of `ResolvePath` in glm-4.5 (no type checks during
descent; `orig` is the argument echoed in the error message). -/
def walk (s : VSt) (orig : Str) : Nat → List Str → Except Str Nat
  | cur, [] => Except.ok cur
  | cur, comp :: rest =>
    if comp = [] then walk s orig cur rest
    else if comp = ['.'] then walk s orig cur rest
    else if comp = ['.', '.'] then
      match s.nodes.lookup cur with
      | none => Except.error (str "DANGLING_POINTER")
      | some n =>
        match n.parent with
        | some p => walk s orig p rest
        | none => walk s orig cur rest
    else
      match s.nodes.lookup cur with
      | none => Except.error (str "DANGLING_POINTER")
      | some n =>
        match n.children.lookup comp with
        | some c => walk s orig c rest
        | none => Except.error (str "path not found: " ++ orig)

/-- The `ResolvePath` method of glm-4.5: empty path resolves to the
current directory; `~` fetches `/home/user` by name; everything else is
made absolute with `GetAbsolutePath` and walked from the root. -/
def ResolvePath (s : VSt) (path : Str) : Except Str Nat :=
  if path = [] then Except.ok s.cur
  else if path = str "~" then
    match s.nodes.lookup s.root with
    | none => Except.error (str "DANGLING_POINTER")
    | some r =>
      match r.children.lookup (str "home") with
      | none => Except.error (str "home directory not found")
      | some hid =>
        match s.nodes.lookup hid with
        | none => Except.error (str "DANGLING_POINTER")
        | some h =>
          match h.children.lookup (str "user") with
          | none => Except.error (str "user directory not found")
          | some uid => Except.ok uid
  else if path = str "-" then
    match s.prev with
    | some p => Except.ok p
    | none => Except.error (str "PANIC_NIL")
  else
    match GetAbsolutePath s path with
    | Except.error e => Except.error e
    | Except.ok absPath => walk s path s.root (splitOnSlash absPath)

/-- The `RemoveChild` method of glm-4.5: removes a named child from a
directory and refreshes the directory's timestamp. -/
def RemoveChild (s : VSt) (pid : Nat) (name : Str) : Except Str VSt :=
  match s.nodes.lookup pid with
  | none => Except.error (str "DANGLING_POINTER")
  | some p =>
    if p.vtype ≠ FType.Directory then Except.error (str "cannot remove child from non-directory")
    else
      match p.children.lookup name with
      | none => Except.error (str "file or directory '" ++ name ++ str "' not found")
      | some _ =>
        let (now, s₁) := s.tick
        Except.ok (s₁.setNode pid { p with children := assocErase name p.children, modTime := now })

/-- Per-path body of the `Rm` command of glm-4.5: fails only on a
non-empty directory without `-r`; an empty directory (or any file) is
detached from its parent; the root (no parent) is refused. -/
def Rm1 (s : VSt) (path : Str) (recursive : Bool) : Except Str VSt :=
  match ResolvePath s path with
  | Except.error e => Except.error e
  | Except.ok tid =>
    match s.nodes.lookup tid with
    | none => Except.error (str "DANGLING_POINTER")
    | some t =>
      if t.vtype = FType.Directory ∧ t.children ≠ [] ∧ ¬recursive then
        Except.error (str "rm: cannot remove '" ++ path ++ str "': Is a directory")
      else
        match t.parent with
        | some pid => RemoveChild s pid t.name
        | none => Except.error (str "rm: cannot remove root directory")

/-- Single-argument body of the `Cd` command of glm-4.5: `cd -` swaps the
current and previous directories in one parallel assignment. -/
def Cd (s : VSt) (path : Str) : Except Str VSt :=
  if path = str "-" then
    match s.prev with
    | none => Except.error (str "cd: no previous directory")
    | some p => Except.ok { s with cur := p, prev := some s.cur }
  else
    match ResolvePath s path with
    | Except.error e => Except.error e
    | Except.ok tid =>
      match s.nodes.lookup tid with
      | none => Except.error (str "DANGLING_POINTER")
      | some t =>
        if t.vtype ≠ FType.Directory then Except.error (str "cd: " ++ path ++ str ": Not a directory")
        else Except.ok { s with prev := some s.cur, cur := tid }

/-- Initial state of glm-4.5: `NewFileSystem` builds root (named by the
empty string), `/home` and `/home/user` via `AddChild` (which refreshes
the parent's timestamp), with both cursor fields at `/home/user`. -/
def initState : VSt :=
  { nodes :=
      [(0, ⟨[], FType.Directory, [], [(str "home", 1)], none, 420, 2, 0⟩),
       (1, ⟨str "home", FType.Directory, [], [(str "user", 2)], some 0, 420, 4, 0⟩),
       (2, ⟨str "user", FType.Directory, [], [], some 1, 420, 3, 0⟩)],
    nextId := 3, root := 0, cur := 2, prev := some 2, clock := 5 }

end Glm

namespace Grok

/-- Segment-walk loop of `ResolvePath` in grok-code-fast-1/filesystem.go;
`..` moves up only when the parent exists and differs from the node
itself (the grok root is its own parent). -/
def walk (s : VSt) (orig : Str) : Nat → List Str → Except Str Nat
  | cur, [] => Except.ok cur
  | cur, part :: rest =>
    if part = [] ∨ part = ['.'] then walk s orig cur rest
    else if part = ['.', '.'] then
      match s.nodes.lookup cur with
      | none => Except.error (str "DANGLING_POINTER")
      | some n =>
        match n.parent with
        | some p => if p ≠ cur then walk s orig p rest else walk s orig cur rest
        | none => walk s orig cur rest
    else
      match s.nodes.lookup cur with
      | none => Except.error (str "DANGLING_POINTER")
      | some n =>
        if n.vtype ≠ FType.Directory then Except.error (str "not a directory: " ++ orig)
        else
          match n.children.lookup part with
          | some c => walk s orig c rest
          | none => Except.error (str "no such file or directory: " ++ orig)

/-- The `ResolvePath` method of grok-code-fast-1: empty path resolves to
the current directory, `/` short-circuits to the root, `~` fetches
`/home/user` by name. -/
def ResolvePath (s : VSt) (path : Str) : Except Str Nat :=
  if path = [] then Except.ok s.cur
  else if startsWithSlash path then
    if path = str "/" then Except.ok s.root
    else walk s path s.root (splitOnSlash (trimSlash path))
  else if path = str "~" then
    match s.nodes.lookup s.root with
    | none => Except.error (str "DANGLING_POINTER")
    | some r =>
      match r.children.lookup (str "home") with
      | none => Except.error (str "PANIC_NIL")
      | some hid =>
        match s.nodes.lookup hid with
        | none => Except.error (str "DANGLING_POINTER")
        | some h =>
          match h.children.lookup (str "user") with
          | none => Except.error (str "PANIC_NIL")
          | some uid => Except.ok uid
  else walk s path s.cur (splitOnSlash path)

/-- The `getParentPath` helper of unnamed/part_003. -/
def getParentPath (path : Str) : Str :=
  if path = str "/" then str "/"
  else
    let parts := splitOnSlash (trimSlash path)
    if parts.length ≤ 1 then ['.']
    else joinWith ['/'] parts.dropLast

/-- The `getBaseName` helper of unnamed/part_003. -/
def getBaseName (path : Str) : Str :=
  (splitOnSlash (trimSlash path)).getLast?.getD []

/-- Per-path body of `cmdRm` in unnamed/part_003: refuses a directory
without `-r`, then deletes the target's name from its parent's child map.
There is no root check: for the root this delete is a no-op on the root's
own child map (the grok root is its own parent) and the command reports
success. -/
def cmdRm1 (s : VSt) (path : Str) (recursive : Bool) : Except Str VSt :=
  match ResolvePath s path with
  | Except.error e => Except.error e
  | Except.ok tid =>
    match s.nodes.lookup tid with
    | none => Except.error (str "DANGLING_POINTER")
    | some t =>
      if t.vtype = FType.Directory ∧ ¬recursive then
        Except.error (str "rm: cannot remove '" ++ path ++ str "': Is a directory")
      else
        match t.parent with
        | none => Except.error (str "PANIC_NIL")
        | some pid =>
          match s.nodes.lookup pid with
          | none => Except.error (str "DANGLING_POINTER")
          | some p => Except.ok (s.setNode pid { p with children := assocErase t.name p.children })

/-- The `cmdMv` body of unnamed/part_003: detaches the source from its
parent, then renames and re-parents it under the resolved parent of the
destination.  There is no root check and no destination-exists check, so
`mv /` renames and re-parents the root itself. -/
def cmdMv (s : VSt) (source dest : Str) : Except Str VSt :=
  match ResolvePath s source with
  | Except.error e => Except.error e
  | Except.ok sid =>
    match s.nodes.lookup sid with
    | none => Except.error (str "DANGLING_POINTER")
    | some sf =>
      let s₁ :=
        match sf.parent with
        | none => s
        | some pid =>
          match s.nodes.lookup pid with
          | none => s
          | some p => s.setNode pid { p with children := assocErase sf.name p.children }
      match ResolvePath s₁ (getParentPath dest) with
      | Except.error e => Except.error e
      | Except.ok dpid =>
        let destName := getBaseName dest
        match s₁.nodes.lookup sid with
        | none => Except.error (str "DANGLING_POINTER")
        | some sf₁ =>
          let (now, s₂) := s₁.tick
          let s₃ := s₂.setNode sid { sf₁ with name := destName, parent := some dpid, modTime := now }
          match s₃.nodes.lookup dpid with
          | none => Except.error (str "DANGLING_POINTER")
          | some dp₃ => Except.ok (s₃.setNode dpid { dp₃ with children := assocSet destName sid dp₃.children })

/-- Initial state of grok-code-fast-1: `NewFileSystem` builds `/` (whose
parent is itself), `/home` and `/home/user`; the current directory is
`/home/user` and there is no previous directory yet. -/
def initState : VSt :=
  { nodes :=
      [(0, ⟨str "/", FType.Directory, [], [(str "home", 1)], some 0, 493, 0, 0⟩),
       (1, ⟨str "home", FType.Directory, [], [(str "user", 2)], some 0, 493, 1, 0⟩),
       (2, ⟨str "user", FType.Directory, [], [], some 1, 493, 2, 0⟩)],
    nextId := 3, root := 0, cur := 2, prev := none, clock := 3 }

end Grok

/-!  Concrete scenario states used by the claim theorems below.  Each is a
short command sequence executed from a variant's initial state (the
`getD` fallback never triggers: every step is separately proved to
succeed where it matters). -/

/-- Sky variant after `echo hi > a.txt`. -/
def skyEcho1 : Sky.BSt :=
  (Sky.EchoWrite Sky.initState (str "hi") (str "a.txt") false).toOption.getD Sky.initState

/-- Sky variant after `echo hi > a.txt; cp a.txt b.txt`. -/
def skyCp1 : Sky.BSt :=
  (Sky.Cp skyEcho1 (str "a.txt") (str "b.txt") false).toOption.getD skyEcho1

/-- Sky variant after `mkdir d`. -/
def skyRmA : Sky.BSt :=
  (Sky.Mkdir Sky.initState (str "d") false).toOption.getD Sky.initState

/-- Sky variant after `mkdir d; touch d/x`. -/
def skyRmB : Sky.BSt := (Sky.Touch skyRmA (str "d/x")).toOption.getD skyRmA

/-- Sky variant after `mkdir d; touch d/x; touch x`. -/
def skyRmC : Sky.BSt := (Sky.Touch skyRmB (str "x")).toOption.getD skyRmB

/-- Sky variant after `touch b`. -/
def skyLsA : Sky.BSt := (Sky.Touch Sky.initState (str "b")).toOption.getD Sky.initState

/-- Sky variant after `touch b; touch a`. -/
def skyLsB : Sky.BSt := (Sky.Touch skyLsA (str "a")).toOption.getD skyLsA

/-- Dusk variant after `touch f`. -/
def duskF : VSt := (Dusk.Touch Dusk.initState (str "f")).toOption.getD Dusk.initState

/-- Dusk variant after `touch f; mkdir d`. -/
def duskFD : VSt := (Dusk.MkDir duskF (str "d") false).toOption.getD duskF

/-- Dusk variant after `touch f; echo hi > f`. -/
def duskHi : VSt := (Dusk.Echo duskF (str "hi") (str "f") false).toOption.getD duskF

/-- Dusk variant after `mkdir a`. -/
def duskRmA : VSt := (Dusk.MkDir Dusk.initState (str "a") false).toOption.getD Dusk.initState

/-- Dusk variant after `mkdir a; mkdir a/b`. -/
def duskRmB : VSt := (Dusk.MkDir duskRmA (str "a/b") false).toOption.getD duskRmA

/-- Dusk variant after `mkdir a; mkdir a/b; mkdir b`. -/
def duskRmC : VSt := (Dusk.MkDir duskRmB (str "b") false).toOption.getD duskRmB

/-- Dusk variant after `touch f; mkdir d; touch b; touch a`. -/
def duskLs : VSt :=
  (Dusk.Touch ((Dusk.Touch duskFD (str "b")).toOption.getD duskFD) (str "a")).toOption.getD duskFD

/-- Well-formedness of a sky-variant heap, as established by every
reachable state: all node identifiers and buffer references are below
their allocation counters. -/
def Sky.WFb (s : Sky.BSt) : Bool :=
  s.nodes.all (fun pr => decide (pr.1 < s.nextId) &&
    pr.2.content.all (fun r => decide (r < s.nextBuf))) &&
  s.bufs.all (fun pr => decide (pr.1 < s.nextBuf))

/-- Heap evolution produced by the copy machinery of the sky variant:
allocation counters only grow, the bytes of every pre-existing buffer are
untouched, every pre-existing node keeps its content reference, and every
newly created node refers only to freshly allocated buffers. -/
def Sky.evolves (s s' : Sky.BSt) : Prop :=
  s.nextId ≤ s'.nextId ∧ s.nextBuf ≤ s'.nextBuf ∧
  (∀ r, r < s.nextBuf → s'.bufs.lookup r = s.bufs.lookup r) ∧
  (∀ id n, s.nodes.lookup id = some n →
    ∃ n', s'.nodes.lookup id = some n' ∧ n'.content = n.content) ∧
  (∀ id n', s.nodes.lookup id = none → s'.nodes.lookup id = some n' →
    ∀ r, n'.content = some r → s.nextBuf ≤ r)

/-!  General lemmas about the association-list heap operations. -/

theorem lookup_cons {α β : Type} [DecidableEq α] [BEq α] [LawfulBEq α]
    (a k : α) (b : β) (es : List (α × β)) :
    List.lookup a ((k, b) :: es) = if a = k then some b else List.lookup a es := by
  by_cases h : a = k
  · simp [List.lookup, h]
  · rw [if_neg h]
    show (match a == k with | true => some b | false => List.lookup a es) = List.lookup a es
    rw [beq_false_of_ne h]

theorem lookup_assocSet_self {α β : Type} [DecidableEq α] [BEq α] [LawfulBEq α]
    (k : α) (v : β) (l : List (α × β)) : (assocSet k v l).lookup k = some v := by
  induction l with
  | nil => simp [assocSet, lookup_cons]
  | cons p rest ih =>
    obtain ⟨k', v'⟩ := p
    by_cases h : k' = k
    · simp [assocSet, h, lookup_cons]
    · simp [assocSet, h, lookup_cons, ih, Ne.symm h]

theorem lookup_assocSet_ne {α β : Type} [DecidableEq α] [BEq α] [LawfulBEq α]
    {k₂ k : α} (v : β) (l : List (α × β)) (h : k₂ ≠ k) :
    (assocSet k v l).lookup k₂ = l.lookup k₂ := by
  induction l with
  | nil => simp [assocSet, lookup_cons, h]
  | cons p rest ih =>
    obtain ⟨k', v'⟩ := p
    by_cases hk : k' = k
    · subst hk
      simp [assocSet, lookup_cons, h]
    · simp only [assocSet, if_neg hk, lookup_cons]
      by_cases hk2 : k₂ = k'
      · simp [hk2]
      · simp [hk2, ih]

theorem lookup_assocErase_self {α β : Type} [DecidableEq α] [BEq α] [LawfulBEq α]
    (k : α) (l : List (α × β)) : (assocErase k l).lookup k = none := by
  induction l with
  | nil => simp [assocErase, List.lookup]
  | cons p rest ih =>
    obtain ⟨k', v'⟩ := p
    by_cases h : k' = k
    · simp [assocErase, h, ih]
    · simp [assocErase, h, lookup_cons, ih, Ne.symm h]

theorem lookup_assocErase_ne {α β : Type} [DecidableEq α] [BEq α] [LawfulBEq α]
    {k₂ k : α} (l : List (α × β)) (h : k₂ ≠ k) :
    (assocErase k l).lookup k₂ = l.lookup k₂ := by
  induction l with
  | nil => simp [assocErase]
  | cons p rest ih =>
    obtain ⟨k', v'⟩ := p
    by_cases hk : k' = k
    · subst hk
      simp [assocErase, lookup_cons, h, ih]
    · simp only [assocErase, if_neg hk, lookup_cons]
      by_cases hk2 : k₂ = k'
      · simp [hk2]
      · simp [hk2, ih]

theorem lookup_append_some {α β : Type} [DecidableEq α] [BEq α] [LawfulBEq α]
    {l₁ : List (α × β)} (l₂ : List (α × β)) {k : α} {v : β} (h : l₁.lookup k = some v) :
    (l₁ ++ l₂).lookup k = some v := by
  induction l₁ with
  | nil => simp [List.lookup] at h
  | cons p rest ih =>
    obtain ⟨k', v'⟩ := p
    rw [lookup_cons] at h
    rw [List.cons_append, lookup_cons]
    by_cases hk : k = k'
    · simpa [hk] using h
    · rw [if_neg hk] at h
      simpa [hk] using ih h

theorem lookup_append_none {α β : Type} [DecidableEq α] [BEq α] [LawfulBEq α]
    {l₁ : List (α × β)} (l₂ : List (α × β)) {k : α} (h : l₁.lookup k = none) :
    (l₁ ++ l₂).lookup k = l₂.lookup k := by
  induction l₁ with
  | nil => simp
  | cons p rest ih =>
    obtain ⟨k', v'⟩ := p
    rw [lookup_cons] at h
    rw [List.cons_append, lookup_cons]
    by_cases hk : k = k'
    · simp [hk] at h
    · rw [if_neg hk] at h
      simpa [hk] using ih h

theorem mem_of_lookup {α β : Type} [DecidableEq α] [BEq α] [LawfulBEq α]
    {l : List (α × β)} {k : α} {v : β} (h : l.lookup k = some v) : (k, v) ∈ l := by
  induction l with
  | nil => simp [List.lookup] at h
  | cons p rest ih =>
    obtain ⟨k', v'⟩ := p
    rw [lookup_cons] at h
    by_cases hk : k = k'
    · rw [if_pos hk] at h
      cases h
      simp [hk]
    · rw [if_neg hk] at h
      exact List.mem_cons_of_mem _ (ih h)

/-- C1 (code bug): the specification requires `rm`, `rmdir` and `mv` on `/`
to fail and the root never to be removed, renamed or replaced.  In the
grok-code-fast-1 variant `rm -r /` reports success (the tree happens to
survive only because the root's child map has no entry named `/`), and
`mv / x` renames the root to `x` and re-parents it under the current
directory; the sonoma-dusk-alpha `Move` does the same. -/
theorem c1_root_protection_bug :
    Grok.cmdRm1 Grok.initState (str "/") true = Except.ok Grok.initState ∧
    Grok.cmdRm1 Grok.initState (str "/") false =
      Except.error (str "rm: cannot remove '/': Is a directory") ∧
    ((Grok.cmdMv Grok.initState (str "/") (str "x")).toOption.bind
        (fun s => s.nodes.lookup Grok.initState.root)).map (fun n => (n.name, n.parent)) =
      some (str "x", some 2) ∧
    ((Dusk.Move Dusk.initState (str "/") (str "x")).toOption.bind
        (fun s => s.nodes.lookup Dusk.initState.root)).map (fun n => (n.name, n.parent)) =
      some (str "x", some 2) :=
  ⟨by decide, by decide, by decide, by decide⟩

/-- C6 (counterexample): in the sonoma-dusk-alpha variant, resolving the
empty path fails with `empty path` instead of returning the current
directory. -/
theorem c6_counterexample :
    Dusk.resolvePath Dusk.initState [] = Except.error (str "empty path") := by decide

/-- C6 (amended): the grok, sky and glm resolvers map the empty path to
the cursor's current directory for every state, while the dusk resolver
rejects the empty path outright for every state. -/
theorem c6_amended :
    (∀ s : Sky.BSt, Sky.ResolvePath s [] = Except.ok s.cur) ∧
    (∀ s : VSt, Glm.ResolvePath s [] = Except.ok s.cur) ∧
    (∀ s : VSt, Grok.ResolvePath s [] = Except.ok s.cur) ∧
    (∀ s : VSt, Dusk.resolvePath s [] = Except.error (str "empty path")) := by
  refine ⟨fun s => ?_, fun s => ?_, fun s => ?_, fun s => ?_⟩
  · simp [Sky.ResolvePath]
  · simp [Glm.ResolvePath]
  · simp [Grok.ResolvePath]
  · simp [Dusk.resolvePath]

/-- C2 (counterexample): `/home/user` in the freshly initialized sky
variant is a directory with no children, yet `rm` without `recursive`
fails on it — the claim requires success on an empty directory. -/
theorem c2_counterexample :
    ((Sky.ResolvePath Sky.initState (str "/home/user")).toOption.bind
        (fun id => Sky.initState.nodes.lookup id)).map (fun n => (n.vtype, n.children)) =
      some (FType.Directory, []) ∧
    Sky.Rm Sky.initState (str "/home/user") false =
      Except.error (str "rm: /home/user: is a directory") :=
  ⟨by decide, by decide⟩

/-- C7 (counterexample): `/home/user` is a directory, yet `Touch` on it in
the sonoma-sky-alpha variant succeeds (refreshing its timestamp) — the
claim requires an `IsADirectory` failure. -/
theorem c7_counterexample :
    ((Sky.ResolvePath Sky.initState (str "/home/user")).toOption.bind
        (fun id => Sky.initState.nodes.lookup id)).map (fun n => n.vtype) =
      some FType.Directory ∧
    (Sky.Touch Sky.initState (str "/home/user")).toOption.isSome = true :=
  ⟨by decide, by decide⟩

/-- C3 (code bug): after `mkdir d; touch d/x; touch x` in the sky variant,
`rm -r d` succeeds but also destroys the sibling file `x` (its
`deleteRecursive` deletes child names from `dir.Parent.Children`); after
`mkdir a; mkdir a/b; mkdir b` in the dusk variant, `rm -r a` succeeds but
destroys the sibling directory `b` (its recursion re-resolves the bare
child name `b` against the current working directory).  The claim — and
the specification — require every node outside the removed subtree to
survive. -/
theorem c3_rm_recursive_bug :
    (Sky.ResolvePath skyRmC (str "x")).toOption.isSome = true ∧
    (Sky.ResolvePath skyRmC (str "d/x")).toOption.isSome = true ∧
    (Sky.Rm skyRmC (str "d") true).toOption.map (fun s =>
      ((Sky.ResolvePath s (str "d")).toOption.isSome,
       (Sky.ResolvePath s (str "x")).toOption.isSome)) = some (false, false) ∧
    (Dusk.resolvePath duskRmC (str "b")).toOption.isSome = true ∧
    (Dusk.resolvePath duskRmC (str "a/b")).toOption.isSome = true ∧
    (Dusk.Rm duskRmC (str "a") true).toOption.map (fun s =>
      ((Dusk.resolvePath s (str "a")).toOption.isSome,
       (Dusk.resolvePath s (str "b")).toOption.isSome)) = some (false, false) :=
  ⟨by decide, by decide, by decide, by decide, by decide, by decide⟩

/-- C4 (counterexample): after `touch f; mkdir d` in the sonoma-dusk-alpha
variant, `d` resolves to an existing directory, yet `cp f d` fails with
`file already exists` instead of creating the copy inside `d` under the
source's name. -/
theorem c4_counterexample :
    ((Dusk.resolvePath duskFD (str "d")).toOption.bind
        (fun id => duskFD.nodes.lookup id)).map (fun n => n.vtype) = some FType.Directory ∧
    Dusk.Copy duskFD (str "f") (str "d") false = Except.error (str "file already exists") :=
  ⟨by decide, by decide⟩

/-- C8 (counterexample): after `touch b; touch a` in the sky variant, `ls`
renders the children in map-iteration order — here `b a`, which is not
sorted lexicographically; the source applies no sorting at all. -/
theorem c8_counterexample :
    Sky.Ls skyLsB (str ".") false false = Except.ok (str "b a") ∧
    ¬ List.Sorted (fun a b : Str => a ≤ b) [str "b", str "a"] :=
  ⟨by decide, by decide⟩

/-- C9 (confirmed): whenever a previous directory is set, `cd -` in the
sonoma-sky-alpha and glm-4.5 variants exchanges `currentDirectory` and
`previousDirectory`, and a second `cd -` restores the entire state
exactly. -/
theorem c9_cd_dash_swap :
    (∀ (s : Sky.BSt) (p : Nat), s.prev = some p →
      Sky.Cd s (str "-") = Except.ok { s with cur := p, prev := some s.cur } ∧
      Sky.Cd { s with cur := p, prev := some s.cur } (str "-") = Except.ok s) ∧
    (∀ (s : VSt) (p : Nat), s.prev = some p →
      Glm.Cd s (str "-") = Except.ok { s with cur := p, prev := some s.cur } ∧
      Glm.Cd { s with cur := p, prev := some s.cur } (str "-") = Except.ok s) := by
  have hne : ¬ (str "-" = ([] : Str)) := by decide
  constructor
  · intro s p h
    obtain ⟨nodes, bufs, nid, nb, root, cur, prev, clock⟩ := s
    simp only at h
    subst h
    exact ⟨by simp [Sky.Cd, hne], by simp [Sky.Cd, hne]⟩
  · intro s p h
    obtain ⟨nodes, nid, root, cur, prev, clock⟩ := s
    simp only at h
    subst h
    exact ⟨by simp [Glm.Cd], by simp [Glm.Cd]⟩

/-- C9 witness: the swap evaluated on the initial states of both variants
(previous directory `/` for sky, `/home/user` for glm). -/
theorem c9_witness :
    Sky.initState.prev = some 0 ∧
    Sky.Cd Sky.initState (str "-") =
      Except.ok { Sky.initState with cur := 0, prev := some Sky.initState.cur } ∧
    Glm.initState.prev = some 2 ∧
    Glm.Cd Glm.initState (str "-") =
      Except.ok { Glm.initState with cur := 2, prev := some Glm.initState.cur } :=
  ⟨by decide, (c9_cd_dash_swap.1 Sky.initState 0 (by decide)).1, by decide,
   (c9_cd_dash_swap.2 Glm.initState 2 (by decide)).1⟩

/-- C2 (amended): in the glm-4.5 variant the claim holds as stated —
`rm` without `recursive` fails (with the `Is a directory` error) exactly
on a directory with at least one child, and detaches an empty non-root
directory from its parent; but in the sonoma-sky-alpha and
grok-code-fast-1 variants `rm` without `recursive` fails on every
directory, empty or not. -/
theorem c2_amended :
    (∀ (s : VSt) (p : Str) (tid : Nat) (t : VFile),
      Glm.ResolvePath s p = Except.ok tid → s.nodes.lookup tid = some t →
      t.vtype = FType.Directory → t.children ≠ [] →
      Glm.Rm1 s p false =
        Except.error (str "rm: cannot remove '" ++ p ++ str "': Is a directory")) ∧
    (∀ (s : VSt) (p : Str) (tid : Nat) (t : VFile) (pid : Nat) (par : VFile) (q : Nat),
      Glm.ResolvePath s p = Except.ok tid → s.nodes.lookup tid = some t →
      t.children = [] → t.parent = some pid → s.nodes.lookup pid = some par →
      par.vtype = FType.Directory → par.children.lookup t.name = some q →
      Glm.Rm1 s p false =
        Except.ok ({ s with clock := s.clock + 1 }.setNode pid
          { par with children := assocErase t.name par.children, modTime := s.clock }) ∧
      (assocErase t.name par.children).lookup t.name = none) ∧
    (∀ (s : Sky.BSt) (p : Str) (tid : Nat) (t : Sky.BFile),
      Sky.ResolvePath s p = Except.ok tid → s.nodes.lookup tid = some t →
      t.vtype = FType.Directory → ∃ e, Sky.Rm s p false = Except.error e) ∧
    (∀ (s : VSt) (p : Str) (tid : Nat) (t : VFile),
      Grok.ResolvePath s p = Except.ok tid → s.nodes.lookup tid = some t →
      t.vtype = FType.Directory → ∃ e, Grok.cmdRm1 s p false = Except.error e) := by
  refine ⟨?_, ?_, ?_, ?_⟩
  · intro s p tid t hres hlook ht hch
    simp only [Glm.Rm1, hres, hlook]
    simp [ht, hch]
  · intro s p tid t pid par q hres hlook hch hpar hplook hpdir hq
    constructor
    · simp only [Glm.Rm1, hres, hlook]
      rw [if_neg (by simp [hch])]
      rw [hpar]
      simp only [Glm.RemoveChild, hplook, hq]
      rw [if_neg (by simp [hpdir])]
      rfl
    · exact lookup_assocErase_self _ _
  · intro s p tid t hres hlook ht
    by_cases hp : p = []
    · exact ⟨_, by rw [Sky.Rm, if_pos hp]⟩
    · rw [Sky.Rm, if_neg hp]
      simp only [hres]
      by_cases hr : tid = s.root
      · exact ⟨_, by rw [if_pos hr]⟩
      · rw [if_neg hr]
        simp only [hlook]
        match hpp : t.parent with
        | none => exact ⟨_, rfl⟩
        | some pid =>
          refine ⟨str "rm: " ++ p ++ str ": is a directory", ?_⟩
          simp [ht]
  · intro s p tid t hres hlook ht
    simp only [Grok.cmdRm1, hres, hlook]
    rw [if_pos ⟨ht, by simp⟩]
    exact ⟨_, rfl⟩

/-- C2 witness: the amended behaviour evaluated on the initial states —
glm refuses the non-empty `/home` and removes the empty `/home/user`,
while sky and grok refuse even the empty directory `/home/user`. -/
theorem c2_witness :
    Glm.Rm1 Glm.initState (str "/home") false =
      Except.error (str "rm: cannot remove '" ++ str "/home" ++ str "': Is a directory") ∧
    (Glm.Rm1 Glm.initState (str "/home/user") false).toOption.isSome = true ∧
    (∃ e, Sky.Rm Sky.initState (str "/home/user") false = Except.error e) ∧
    (∃ e, Grok.cmdRm1 Grok.initState (str "/home") false = Except.error e) := by
  refine ⟨?_, ?_, ?_, ?_⟩
  · exact c2_amended.1 Glm.initState (str "/home") 1
      ⟨str "home", FType.Directory, [], [(str "user", 2)], some 0, 420, 4, 0⟩
      (by decide) (by decide) (by decide) (by decide)
  · rw [(c2_amended.2.1 Glm.initState (str "/home/user") 2
      ⟨str "user", FType.Directory, [], [], some 1, 420, 3, 0⟩ 1
      ⟨str "home", FType.Directory, [], [(str "user", 2)], some 0, 420, 4, 0⟩ 2
      (by decide) (by decide) (by decide) (by decide) (by decide) (by decide) (by decide)).1]
    rfl
  · exact c2_amended.2.2.1 Sky.initState (str "/home/user") 2
      ⟨str "user", FType.Directory, none, [], some 1, 493, 2, 0⟩
      (by decide) (by decide) (by decide)
  · exact c2_amended.2.2.2 Grok.initState (str "/home") 1
      ⟨str "home", FType.Directory, [], [(str "user", 2)], some 0, 493, 1, 0⟩
      (by decide) (by decide) (by decide)

/-- C7 (amended): in the sonoma-dusk-alpha variant the claim holds —
`Touch` on an existing file rewrites only its timestamp (content and all
other nodes untouched) and `Touch` on an existing directory fails with
the `is a directory` error; but in the sonoma-sky-alpha variant `Touch`
on an existing entry of any kind — including a directory — succeeds,
refreshing its timestamp and recomputing its size. -/
theorem c7_amended :
    (∀ (s : VSt) (p : Str) (fid : Nat) (f : VFile),
      Dusk.resolvePath s p = Except.ok fid → s.nodes.lookup fid = some f →
      f.vtype = FType.RegularFile →
      Dusk.Touch s p =
        Except.ok ({ s with clock := s.clock + 1 }.setNode fid { f with modTime := s.clock }) ∧
      ∀ id, id ≠ fid →
        ({ s with clock := s.clock + 1 }.setNode fid { f with modTime := s.clock }).nodes.lookup id =
          s.nodes.lookup id) ∧
    (∀ (s : VSt) (p : Str) (fid : Nat) (f : VFile),
      Dusk.resolvePath s p = Except.ok fid → s.nodes.lookup fid = some f →
      f.vtype = FType.Directory →
      Dusk.Touch s p = Except.error (p ++ str " is a directory")) ∧
    (∀ (s : Sky.BSt) (p dp fn : Str) (did : Nat) (d : Sky.BFile) (fid : Nat) (t : Sky.BFile),
      p ≠ [] → splitLast p = (dp, fn) →
      Sky.ResolvePath s dp = Except.ok did → s.nodes.lookup did = some d →
      d.vtype = FType.Directory → d.children.lookup fn = some fid →
      s.nodes.lookup fid = some t → t.vtype = FType.Directory →
      Sky.Touch s p = Except.ok ({ s with clock := s.clock + 1 }.setNode fid
        { t with modTime := s.clock, size := Sky.contentLen s t.content })) := by
  refine ⟨?_, ?_, ?_⟩
  · intro s p fid f hres hlook hf
    constructor
    · simp only [Dusk.Touch, hres, hlook]
      rw [if_neg (by simp [hf])]
      rfl
    · intro id hid
      exact lookup_assocSet_ne _ _ hid
  · intro s p fid f hres hlook hf
    simp only [Dusk.Touch, hres, hlook]
    rw [if_pos hf]
  · intro s p dp fn did d fid t hp hsp hres hlook hdir hch hflook _ht
    rw [Sky.Touch, if_neg hp, hsp]
    simp only [hres, hlook]
    rw [if_neg (by simp [hdir])]
    simp only [hch, hflook]
    rfl

/-- C7 witness: dusk updating only the timestamp of the file `f`, dusk
refusing the directory `/home/user`, and sky succeeding on that same
directory. -/
theorem c7_witness :
    Dusk.Touch duskF (str "f") =
      Except.ok ({ duskF with clock := duskF.clock + 1 }.setNode 3
        { (⟨str "f", FType.RegularFile, [], [], some 2, 0, 3, 0⟩ : VFile) with
          modTime := duskF.clock }) ∧
    Dusk.Touch Dusk.initState (str "/home/user") =
      Except.error (str "/home/user" ++ str " is a directory") ∧
    Sky.Touch Sky.initState (str "/home/user") =
      Except.ok ({ Sky.initState with clock := Sky.initState.clock + 1 }.setNode 2
        { (⟨str "user", FType.Directory, none, [], some 1, 493, 2, 0⟩ : Sky.BFile) with
          modTime := Sky.initState.clock,
          size := Sky.contentLen Sky.initState none }) := by
  refine ⟨?_, ?_, ?_⟩
  · exact (c7_amended.1 duskF (str "f") 3
      ⟨str "f", FType.RegularFile, [], [], some 2, 0, 3, 0⟩
      (by decide) (by decide) (by decide)).1
  · exact c7_amended.2.1 Dusk.initState (str "/home/user") 2
      ⟨str "user", FType.Directory, [], [], some 1, 0, 2, 0⟩
      (by decide) (by decide) (by decide)
  · exact c7_amended.2.2 Sky.initState (str "/home/user") (str "/home/") (str "user") 1
      ⟨str "home", FType.Directory, none, [(str "user", 2)], some 0, 493, 1, 0⟩ 2
      ⟨str "user", FType.Directory, none, [], some 1, 493, 2, 0⟩
      (by decide) (by decide) (by decide) (by decide) (by decide) (by decide) (by decide) (by decide)

/-- C8 (amended): the sonoma-dusk-alpha `Ls` filters hidden names unless
`-a` and renders the remaining names sorted lexicographically (so any two
iteration orders of the same child set produce the same listing, as the
determinism conjunct states); the sonoma-sky-alpha `Ls` performs the same
hidden-name filtering but renders the names in map-iteration order with
no sorting at all. -/
theorem c8_amended :
    (∀ (s : VSt) (p : Str) (did : Nat) (d : VFile) (flagA : Bool),
      p ≠ [] → Dusk.resolvePath s p = Except.ok did →
      s.nodes.lookup did = some d → d.vtype = FType.Directory →
      Dusk.Ls s p false flagA =
        Except.ok (((Dusk.sortStrings
            ((d.children.map Prod.fst).filter (fun n => !(!flagA && startsWithDot n)))).map
          (fun n => n ++ ['\n'])).foldr (· ++ ·) []) ∧
      List.Sorted (fun a b : Str => a ≤ b) (Dusk.sortStrings
        ((d.children.map Prod.fst).filter (fun n => !(!flagA && startsWithDot n)))) ∧
      (Dusk.sortStrings
          ((d.children.map Prod.fst).filter (fun n => !(!flagA && startsWithDot n)))).Perm
        ((d.children.map Prod.fst).filter (fun n => !(!flagA && startsWithDot n)))) ∧
    (∀ l₁ l₂ : List Str, l₁.Perm l₂ → Dusk.sortStrings l₁ = Dusk.sortStrings l₂) ∧
    (∀ (s : Sky.BSt) (p : Str) (did : Nat) (d : Sky.BFile) (all : Bool),
      p ≠ [] → Sky.ResolvePath s p = Except.ok did →
      s.nodes.lookup did = some d → d.vtype = FType.Directory →
      Sky.Ls s p false all =
        Except.ok (joinWith (str " ")
          ((d.children.filter (fun nc => Sky.lsKeep all nc.1)).map Prod.fst))) := by
  refine ⟨?_, ?_, ?_⟩
  · intro s p did d flagA hp hres hlook hdir
    refine ⟨?_, List.sorted_insertionSort _ _, List.perm_insertionSort _ _⟩
    rw [Dusk.Ls]
    rw [if_neg hp]
    simp only [hres, hlook]
    rw [if_neg (by simp [hdir])]
    rfl
  · intro l₁ l₂ h
    exact List.eq_of_perm_of_sorted
      ((List.perm_insertionSort _ l₁).trans (h.trans (List.perm_insertionSort _ l₂).symm))
      (List.sorted_insertionSort _ _) (List.sorted_insertionSort _ _)
  · intro s p did d all hp hres hlook hdir
    rw [Sky.Ls]
    simp only [if_neg hp, hres, hlook]
    rw [if_neg (by simp [hdir])]
    rfl

/-- C8 witness: dusk listing `a b d f` sorted regardless of the creation
order `f d b a`, the sort agreeing on a transposed iteration order, and
sky emitting the unsorted `b a`. -/
theorem c8_witness :
    Dusk.Ls duskLs (str ".") false false =
      Except.ok (((Dusk.sortStrings
          (((⟨str "user", FType.Directory, [],
              [(str "f", 3), (str "d", 4), (str "b", 5), (str "a", 6)],
              some 1, 0, 2, 0⟩ : VFile).children.map Prod.fst).filter
            (fun n => !(!false && startsWithDot n)))).map
        (fun n => n ++ ['\n'])).foldr (· ++ ·) []) ∧
    Dusk.sortStrings [str "b", str "a"] = Dusk.sortStrings [str "a", str "b"] ∧
    Sky.Ls skyLsB (str ".") false false =
      Except.ok (joinWith (str " ")
        (((⟨str "user", FType.Directory, none, [(str "b", 3), (str "a", 4)],
            some 1, 493, 2, 0⟩ : Sky.BFile).children.filter
          (fun nc => Sky.lsKeep false nc.1)).map Prod.fst)) := by
  refine ⟨?_, ?_, ?_⟩
  · exact (c8_amended.1 duskLs (str ".") 2
      ⟨str "user", FType.Directory, [], [(str "f", 3), (str "d", 4), (str "b", 5), (str "a", 6)],
        some 1, 0, 2, 0⟩ false (by decide) (by decide) (by decide) (by decide)).1
  · exact c8_amended.2.1 [str "b", str "a"] [str "a", str "b"] (by decide)
  · exact c8_amended.2.2 skyLsB (str ".") 2
      ⟨str "user", FType.Directory, none, [(str "b", 3), (str "a", 4)], some 1, 493, 2, 0⟩ false
      (by decide) (by decide) (by decide) (by decide)

/-!  Helper lemmas: congruence of dusk path resolution under content-only
node updates, unfolding equations for the sky heap setters, and
extraction lemmas for `Sky.WFb`. -/

theorem duskWalkCongr (s s' : VSt)
    (h : ∀ cur, (s'.nodes.lookup cur).map (fun n => (n.children, n.parent)) =
                (s.nodes.lookup cur).map (fun n => (n.children, n.parent))) :
    ∀ (parts : List Str) (cur : Nat), Dusk.walk s' cur parts = Dusk.walk s cur parts := by
  intro parts
  induction parts with
  | nil => intro cur; rfl
  | cons part rest ih =>
    intro cur
    have hc := h cur
    simp only [Dusk.walk]
    by_cases h1 : part = []
    · simp [h1, ih]
    · by_cases h2 : part = ['.']
      · simp [h1, h2, ih]
      · by_cases h3 : part = ['.', '.']
        · simp only [if_neg h1, if_neg h2, if_pos h3]
          cases hv' : s'.nodes.lookup cur with
          | none =>
            cases hv : s.nodes.lookup cur with
            | none => rfl
            | some n => rw [hv', hv] at hc; simp at hc
          | some n' =>
            cases hv : s.nodes.lookup cur with
            | none => rw [hv', hv] at hc; simp at hc
            | some n =>
              rw [hv', hv] at hc
              simp only [Option.map_some', Option.some.injEq, Prod.mk.injEq] at hc
              obtain ⟨hch, hpar⟩ := hc
              show (match n'.parent with
                    | some q => Dusk.walk s' q rest
                    | none => Dusk.walk s' cur rest) =
                   (match n.parent with
                    | some q => Dusk.walk s q rest
                    | none => Dusk.walk s cur rest)
              rw [hpar]
              cases n.parent <;> simp [ih]
        · simp only [if_neg h1, if_neg h2, if_neg h3]
          cases hv' : s'.nodes.lookup cur with
          | none =>
            cases hv : s.nodes.lookup cur with
            | none => rfl
            | some n => rw [hv', hv] at hc; simp at hc
          | some n' =>
            cases hv : s.nodes.lookup cur with
            | none => rw [hv', hv] at hc; simp at hc
            | some n =>
              rw [hv', hv] at hc
              simp only [Option.map_some', Option.some.injEq, Prod.mk.injEq] at hc
              obtain ⟨hch, hpar⟩ := hc
              show (match n'.children.lookup part with
                    | some c => Dusk.walk s' c rest
                    | none => Except.error (str "no such file or directory: " ++ part)) =
                   (match n.children.lookup part with
                    | some c => Dusk.walk s c rest
                    | none => Except.error (str "no such file or directory: " ++ part))
              rw [hch]
              cases n.children.lookup part <;> simp [ih]

theorem duskResolveCongr (s s' : VSt)
    (hn : ∀ cur, (s'.nodes.lookup cur).map (fun n => (n.children, n.parent)) =
                 (s.nodes.lookup cur).map (fun n => (n.children, n.parent)))
    (hr : s'.root = s.root) (hc : s'.cur = s.cur) (hp : s'.prev = s.prev) :
    ∀ p, Dusk.resolvePath s' p = Dusk.resolvePath s p := by
  intro p
  simp only [Dusk.resolvePath, hr, hc, hp, duskWalkCongr s s' hn]

theorem duskContentShape (s : VSt) (fid : Nat) (f g : VFile)
    (hlook : s.nodes.lookup fid = some f) (c : Nat)
    (hch : g.children = f.children) (hpar : g.parent = f.parent) :
    ∀ cur, (({ s with clock := c } : VSt).setNode fid g |>.nodes.lookup cur).map
        (fun n => (n.children, n.parent)) =
      (s.nodes.lookup cur).map (fun n => (n.children, n.parent)) := by
  intro cur
  by_cases hcur : cur = fid
  · rw [hcur]
    rw [show (({ s with clock := c } : VSt).setNode fid g).nodes.lookup fid = some g from
      lookup_assocSet_self _ _ _, hlook]
    simp [hch, hpar]
  · rw [show (({ s with clock := c } : VSt).setNode fid g).nodes.lookup cur =
      s.nodes.lookup cur from lookup_assocSet_ne _ _ hcur]

theorem skySetNodeNodes (s : Sky.BSt) (id : Nat) (n : Sky.BFile) :
    (s.setNode id n).nodes = assocSet id n s.nodes := rfl

theorem skySetNodeBufs (s : Sky.BSt) (id : Nat) (n : Sky.BFile) :
    (s.setNode id n).bufs = s.bufs := rfl

theorem skySetBufBufs (s : Sky.BSt) (r : Nat) (v : Str) :
    (s.setBuf r v).bufs = assocSet r v s.bufs := rfl

theorem skyWFbNodeLt {s : Sky.BSt} (h : Sky.WFb s = true) {id : Nat} {n : Sky.BFile}
    (hl : s.nodes.lookup id = some n) : id < s.nextId := by
  have hm := mem_of_lookup hl
  unfold Sky.WFb at h
  rw [Bool.and_eq_true] at h
  have := List.all_eq_true.mp h.1 _ hm
  rw [Bool.and_eq_true] at this
  simpa using this.1

theorem skyWFbNodeFresh {s : Sky.BSt} (h : Sky.WFb s = true) :
    s.nodes.lookup s.nextId = none := by
  cases hv : s.nodes.lookup s.nextId with
  | none => rfl
  | some n => exact absurd (skyWFbNodeLt h hv) (lt_irrefl _)

theorem skyWFbBufLt {s : Sky.BSt} (h : Sky.WFb s = true) {r : Nat} {v : Str}
    (hl : s.bufs.lookup r = some v) : r < s.nextBuf := by
  have hm := mem_of_lookup hl
  unfold Sky.WFb at h
  rw [Bool.and_eq_true] at h
  have := List.all_eq_true.mp h.2 _ hm
  simpa using this

theorem skyWFbBufFresh {s : Sky.BSt} (h : Sky.WFb s = true) :
    s.bufs.lookup s.nextBuf = none := by
  cases hv : s.bufs.lookup s.nextBuf with
  | none => rfl
  | some v => exact absurd (skyWFbBufLt h hv) (lt_irrefl _)

theorem skyWFbContentLt {s : Sky.BSt} (h : Sky.WFb s = true) {id : Nat} {n : Sky.BFile}
    (hl : s.nodes.lookup id = some n) {r : Nat} (hc : n.content = some r) : r < s.nextBuf := by
  have hm := mem_of_lookup hl
  unfold Sky.WFb at h
  rw [Bool.and_eq_true] at h
  have := List.all_eq_true.mp h.1 _ hm
  rw [Bool.and_eq_true] at this
  have h2 := this.2
  rw [hc] at h2
  simpa using h2

/-- C10 (confirmed): the write operation appends exactly one newline to
the given text on every write.  In the sonoma-dusk-alpha variant, `Echo`
on an existing file sets the content to `text + "\n"` (overwrite) or to
the old content followed by `text + "\n"` (append), updates the size to
the resulting length, and `Cat` then returns exactly those bytes.  In the
sonoma-sky-alpha variant, `EchoWrite` in overwrite mode installs a fresh
file whose buffer holds `text + "\n"` with matching size, and in append
mode extends the existing buffer by `text + "\n"` with matching size. -/
theorem c10_write_newline :
    (∀ (s : VSt) (text p : Str) (fid : Nat) (f : VFile),
      Dusk.resolvePath s p = Except.ok fid → s.nodes.lookup fid = some f →
      f.vtype = FType.RegularFile →
      Dusk.Echo s text p false =
        Except.ok ({ s with clock := s.clock + 1 }.setNode fid
          { f with content := text ++ ['\n'], modTime := s.clock,
                   size := (text ++ ['\n']).length }) ∧
      Dusk.Cat ({ s with clock := s.clock + 1 }.setNode fid
          { f with content := text ++ ['\n'], modTime := s.clock,
                   size := (text ++ ['\n']).length }) p = Except.ok (text ++ ['\n'])) ∧
    (∀ (s : VSt) (text p : Str) (fid : Nat) (f : VFile),
      Dusk.resolvePath s p = Except.ok fid → s.nodes.lookup fid = some f →
      f.vtype = FType.RegularFile →
      Dusk.Echo s text p true =
        Except.ok ({ s with clock := s.clock + 1 }.setNode fid
          { f with content := f.content ++ text ++ ['\n'], modTime := s.clock,
                   size := (f.content ++ text ++ ['\n']).length }) ∧
      Dusk.Cat ({ s with clock := s.clock + 1 }.setNode fid
          { f with content := f.content ++ text ++ ['\n'], modTime := s.clock,
                   size := (f.content ++ text ++ ['\n']).length }) p =
        Except.ok (f.content ++ text ++ ['\n'])) ∧
    (∀ (s : Sky.BSt) (text p dp fn : Str) (did : Nat) (d : Sky.BFile),
      Sky.WFb s = true → p ≠ [] → splitLast p = (dp, fn) →
      Sky.ResolvePath s dp = Except.ok did → s.nodes.lookup did = some d →
      d.vtype = FType.Directory →
      ∃ s', Sky.EchoWrite s text p false = Except.ok s' ∧
        (∃ d', s'.nodes.lookup did = some d' ∧ d'.children.lookup fn = some s.nextId) ∧
        (∃ nf, s'.nodes.lookup s.nextId = some nf ∧ nf.vtype = FType.RegularFile ∧
          nf.content = some s.nextBuf ∧ nf.size = (text ++ ['\n']).length) ∧
        s'.bufs.lookup s.nextBuf = some (text ++ ['\n'])) ∧
    (∀ (s : Sky.BSt) (text p dp fn : Str) (did : Nat) (d : Sky.BFile)
        (fid : Nat) (f : Sky.BFile) (r : Nat),
      p ≠ [] → splitLast p = (dp, fn) →
      Sky.ResolvePath s dp = Except.ok did → s.nodes.lookup did = some d →
      d.vtype = FType.Directory → d.children.lookup fn = some fid →
      s.nodes.lookup fid = some f → f.vtype = FType.RegularFile → f.content = some r →
      Sky.EchoWrite s text p true =
        Except.ok (({ s with clock := s.clock + 1 }.setBuf r
            (Sky.contentStr s (some r) ++ text ++ ['\n'])).setNode fid
          { f with modTime := s.clock,
                   size := (Sky.contentStr s (some r) ++ text ++ ['\n']).length }) ∧
      ((({ s with clock := s.clock + 1 }.setBuf r
            (Sky.contentStr s (some r) ++ text ++ ['\n'])).setNode fid
          { f with modTime := s.clock,
                   size := (Sky.contentStr s (some r) ++ text ++ ['\n']).length })).bufs.lookup r =
        some (Sky.contentStr s (some r) ++ text ++ ['\n'])) := by
  refine ⟨?_, ?_, ?_, ?_⟩
  · intro s text p fid f hres hlook hf
    constructor
    · simp only [Dusk.Echo, hres, Dusk.echoSet, hlook]
      rfl
    · rw [Dusk.Cat, duskResolveCongr s _ (duskContentShape s fid f
        { f with content := text ++ ['\n'], modTime := s.clock, size := (text ++ ['\n']).length }
        hlook (s.clock + 1) rfl rfl) rfl rfl rfl, hres]
      simp [VSt.setNode, lookup_assocSet_self, hf]
  · intro s text p fid f hres hlook hf
    constructor
    · simp only [Dusk.Echo, hres, Dusk.echoSet, hlook]
      simp [VSt.tick, List.append_assoc]
    · rw [Dusk.Cat, duskResolveCongr s _ (duskContentShape s fid f
        { f with content := f.content ++ text ++ ['\n'], modTime := s.clock,
                 size := (f.content ++ text ++ ['\n']).length }
        hlook (s.clock + 1) rfl rfl) rfl rfl rfl, hres]
      simp [VSt.setNode, lookup_assocSet_self, hf]
  · intro s text p dp fn did d hwf hp hsp hres hlook hdir
    rw [Sky.EchoWrite, if_neg hp, hsp]
    simp only [hres, hlook]
    rw [if_neg (by simp [hdir])]
    simp only [Sky.NewFile, Sky.BSt.allocBuf, Sky.BSt.tick]
    rw [lookup_append_some _ hlook]
    refine ⟨_, rfl, ⟨_, lookup_assocSet_self _ _ _, lookup_assocSet_self _ _ _⟩, ?_, ?_⟩
    · refine ⟨⟨fn, FType.RegularFile, some s.nextBuf, [], some did, 420, s.clock,
        (text ++ ['\n']).length⟩, ?_, rfl, rfl, rfl⟩
      simp only [skySetNodeNodes]
      rw [lookup_assocSet_ne _ _ (Nat.ne_of_lt (skyWFbNodeLt hwf hlook)).symm]
      rw [lookup_append_none _ (skyWFbNodeFresh hwf), lookup_cons, if_pos rfl]
    · simp only [skySetNodeBufs]
      show List.lookup s.nextBuf (s.bufs ++ [(s.nextBuf, text ++ ['\n'])]) = some (text ++ ['\n'])
      rw [lookup_append_none _ (skyWFbBufFresh hwf), lookup_cons, if_pos rfl]
  · intro s text p dp fn did d fid f r hp hsp hres hlook hdir hch hflook hf hr
    constructor
    · rw [Sky.EchoWrite, if_neg hp, hsp]
      simp only [hres, hlook]
      rw [if_neg (by simp [hdir])]
      simp only [hch, hflook]
      rw [if_pos hf, hr]
      rfl
    · simp only [skySetNodeBufs, skySetBufBufs]
      exact lookup_assocSet_self _ _ _

/-- C10 witness: the four write modes evaluated concretely — dusk
overwrite and append on the file `f`, sky overwrite creating `a.txt`, and
sky append extending it. -/
theorem c10_witness :
    Dusk.Echo duskF (str "hi") (str "f") false =
      Except.ok ({ duskF with clock := duskF.clock + 1 }.setNode 3
        { (⟨str "f", FType.RegularFile, [], [], some 2, 0, 3, 0⟩ : VFile) with
          content := str "hi" ++ ['\n'], modTime := duskF.clock,
          size := (str "hi" ++ ['\n']).length }) ∧
    Dusk.Echo duskHi (str "yo") (str "f") true =
      Except.ok ({ duskHi with clock := duskHi.clock + 1 }.setNode 3
        { (⟨str "f", FType.RegularFile, str "hi" ++ ['\n'], [], some 2, 0, 4, 3⟩ : VFile) with
          content := (str "hi" ++ ['\n']) ++ str "yo" ++ ['\n'], modTime := duskHi.clock,
          size := ((str "hi" ++ ['\n']) ++ str "yo" ++ ['\n']).length }) ∧
    (∃ s', Sky.EchoWrite Sky.initState (str "hi") (str "a.txt") false = Except.ok s' ∧
      (∃ d', s'.nodes.lookup 2 = some d' ∧
        d'.children.lookup (str "a.txt") = some Sky.initState.nextId) ∧
      (∃ nf, s'.nodes.lookup Sky.initState.nextId = some nf ∧ nf.vtype = FType.RegularFile ∧
        nf.content = some Sky.initState.nextBuf ∧ nf.size = (str "hi" ++ ['\n']).length) ∧
      s'.bufs.lookup Sky.initState.nextBuf = some (str "hi" ++ ['\n'])) ∧
    Sky.EchoWrite skyEcho1 (str "yo") (str "a.txt") true =
      Except.ok (({ skyEcho1 with clock := skyEcho1.clock + 1 }.setBuf 0
          (Sky.contentStr skyEcho1 (some 0) ++ str "yo" ++ ['\n'])).setNode 3
        { (⟨str "a.txt", FType.RegularFile, some 0, [], some 2, 420, 3, 3⟩ : Sky.BFile) with
          modTime := skyEcho1.clock,
          size := (Sky.contentStr skyEcho1 (some 0) ++ str "yo" ++ ['\n']).length }) := by
  refine ⟨?_, ?_, ?_, ?_⟩
  · exact (c10_write_newline.1 duskF (str "hi") (str "f") 3
      ⟨str "f", FType.RegularFile, [], [], some 2, 0, 3, 0⟩
      (by decide) (by decide) (by decide)).1
  · exact (c10_write_newline.2.1 duskHi (str "yo") (str "f") 3
      ⟨str "f", FType.RegularFile, str "hi" ++ ['\n'], [], some 2, 0, 4, 3⟩
      (by decide) (by decide) (by decide)).1
  · exact c10_write_newline.2.2.1 Sky.initState (str "hi") (str "a.txt") (str "") (str "a.txt")
      2 ⟨str "user", FType.Directory, none, [], some 1, 493, 2, 0⟩
      (by decide) (by decide) (by decide) (by decide) (by decide) (by decide)
  · exact (c10_write_newline.2.2.2 skyEcho1 (str "yo") (str "a.txt") (str "") (str "a.txt")
      2 ⟨str "user", FType.Directory, none, [(str "a.txt", 3)], some 1, 493, 2, 0⟩
      3 ⟨str "a.txt", FType.RegularFile, some 0, [], some 2, 420, 3, 3⟩ 0
      (by decide) (by decide) (by decide) (by decide) (by decide) (by decide) (by decide)
      (by decide) (by decide)).1

/-- C4 (amended): destination rule of `cp`.  In the sonoma-sky-alpha
variant the claim holds: (arm 1) if `dest` resolves to an existing
`Directory` the copy of a regular file `src` is created inside it under
`src`'s own name, as a fresh node with a fresh buffer holding `src`'s
bytes; (arm 2) if `dest` does not resolve, `Dir(dest)` must resolve to a
`Directory` and the copy is created there under `Base(dest)`.  In the
sonoma-dusk-alpha variant there is no nest-into-directory rule: (arm 3)
a successful copy is always created in `resolve(Dir(dest))` under
`Base(dest)` — the returned state is given in full — and (arm 4) any
existing child of that directory named `Base(dest)`, in particular an
existing directory at `dest` itself, makes `Copy` fail with the
`file already exists` error. -/
theorem c4_amended :
    (∀ (s : Sky.BSt) (src dest : Str) (sid : Nat) (sf : Sky.BFile) (did : Nat)
      (dn : Sky.BFile),
      Sky.WFb s = true → src ≠ [] → dest ≠ [] →
      Sky.ResolvePath s src = Except.ok sid → s.nodes.lookup sid = some sf →
      sf.vtype = FType.RegularFile →
      Sky.ResolvePath s dest = Except.ok did → s.nodes.lookup did = some dn →
      dn.vtype = FType.Directory →
      ∃ s', Sky.Cp s src dest false = Except.ok s' ∧
        (∃ d', s'.nodes.lookup did = some d' ∧ d'.children.lookup sf.name = some s.nextId) ∧
        (∃ nf, s'.nodes.lookup s.nextId = some nf ∧ nf.name = sf.name ∧
          nf.vtype = FType.RegularFile ∧ nf.content = some s.nextBuf) ∧
        s'.bufs.lookup s.nextBuf = some (Sky.contentStr s sf.content)) ∧
    (∀ (s : Sky.BSt) (src dest : Str) (sid : Nat) (sf : Sky.BFile) (e : Str)
      (pid : Nat) (pn : Sky.BFile),
      Sky.WFb s = true → src ≠ [] → dest ≠ [] →
      Sky.ResolvePath s src = Except.ok sid → s.nodes.lookup sid = some sf →
      sf.vtype = FType.RegularFile →
      Sky.ResolvePath s dest = Except.error e →
      Sky.ResolvePath s (goDir dest) = Except.ok pid →
      s.nodes.lookup pid = some pn → pn.vtype = FType.Directory →
      ∃ s', Sky.Cp s src dest false = Except.ok s' ∧
        (∃ p', s'.nodes.lookup pid = some p' ∧
          p'.children.lookup (goBase dest) = some s.nextId) ∧
        (∃ nf, s'.nodes.lookup s.nextId = some nf ∧ nf.name = goBase dest ∧
          nf.vtype = FType.RegularFile ∧ nf.content = some s.nextBuf) ∧
        s'.bufs.lookup s.nextBuf = some (Sky.contentStr s sf.content)) ∧
    (∀ (s : VSt) (src dest : Str) (sid : Nat) (sf : VFile) (pid : Nat) (pn : VFile),
      Dusk.resolvePath s src = Except.ok sid → s.nodes.lookup sid = some sf →
      sf.vtype = FType.RegularFile →
      Dusk.resolvePath s (goDir dest) = Except.ok pid →
      s.nodes.lookup pid = some pn → pn.vtype = FType.Directory →
      pn.children.lookup (goBase dest) = none →
      Dusk.Copy s src dest false =
        Except.ok (({ s with
            clock := s.clock + 1
            nodes := s.nodes ++ [(s.nextId,
              (⟨goBase dest, FType.RegularFile, sf.content, [], some pid, 0, s.clock,
                sf.content.length⟩ : VFile))]
            nextId := s.nextId + 1 } : VSt).setNode pid
          { pn with children := assocSet (goBase dest) s.nextId pn.children })) ∧
    (∀ (s : VSt) (src dest : Str) (sid : Nat) (pid : Nat) (pn : VFile) (q : Nat),
      Dusk.resolvePath s src = Except.ok sid →
      Dusk.resolvePath s (goDir dest) = Except.ok pid →
      s.nodes.lookup pid = some pn → pn.vtype = FType.Directory →
      pn.children.lookup (goBase dest) = some q →
      Dusk.Copy s src dest false = Except.error (str "file already exists")) := by
  refine ⟨?_, ?_, ?_, ?_⟩
  · intro s src dest sid sf did dn hwf hs hd hres hslook hsf hdres hdlook hdn
    rw [Sky.Cp, if_neg (by simp [hs, hd])]
    simp only [hres]
    rw [show Sky.ExistsB s dest = true from by simp [Sky.ExistsB, hdres]]
    simp only [if_true, hdres, hdlook]
    rw [if_pos hdn]
    simp only [hslook]
    rw [if_pos hsf]
    simp only [Sky.NewFile, Sky.BSt.allocBuf, Sky.BSt.tick]
    rw [lookup_append_some _ hdlook]
    refine ⟨_, rfl, ⟨_, lookup_assocSet_self _ _ _, lookup_assocSet_self _ _ _⟩, ?_, ?_⟩
    · refine ⟨⟨sf.name, FType.RegularFile, some s.nextBuf, [], some did, 420, s.clock,
        (Sky.contentStr s sf.content).length⟩, ?_, rfl, rfl, rfl⟩
      simp only [skySetNodeNodes]
      rw [lookup_assocSet_ne _ _ (Nat.ne_of_lt (skyWFbNodeLt hwf hdlook)).symm]
      rw [lookup_append_none _ (skyWFbNodeFresh hwf), lookup_cons, if_pos rfl]
    · simp only [skySetNodeBufs]
      show List.lookup s.nextBuf (s.bufs ++ [(s.nextBuf, Sky.contentStr s sf.content)]) = _
      rw [lookup_append_none _ (skyWFbBufFresh hwf), lookup_cons, if_pos rfl]
  · intro s src dest sid sf e pid pn hwf hs hd hres hslook hsf hdres hpres hplook hpn
    rw [Sky.Cp, if_neg (by simp [hs, hd])]
    simp only [hres]
    rw [show Sky.ExistsB s dest = false from by simp [Sky.ExistsB, hdres]]
    simp only [if_false, Bool.false_eq_true, hpres, hplook]
    rw [if_neg (by simp [hpn])]
    simp only [hslook]
    rw [if_pos hsf]
    simp only [Sky.NewFile, Sky.BSt.allocBuf, Sky.BSt.tick]
    rw [lookup_append_some _ hplook]
    refine ⟨_, rfl, ⟨_, lookup_assocSet_self _ _ _, lookup_assocSet_self _ _ _⟩, ?_, ?_⟩
    · refine ⟨⟨goBase dest, FType.RegularFile, some s.nextBuf, [], some pid, 420, s.clock,
        (Sky.contentStr s sf.content).length⟩, ?_, rfl, rfl, rfl⟩
      simp only [skySetNodeNodes]
      rw [lookup_assocSet_ne _ _ (Nat.ne_of_lt (skyWFbNodeLt hwf hplook)).symm]
      rw [lookup_append_none _ (skyWFbNodeFresh hwf), lookup_cons, if_pos rfl]
    · simp only [skySetNodeBufs]
      show List.lookup s.nextBuf (s.bufs ++ [(s.nextBuf, Sky.contentStr s sf.content)]) = _
      rw [lookup_append_none _ (skyWFbBufFresh hwf), lookup_cons, if_pos rfl]
  · intro s src dest sid sf pid pn hres hslook hsf hpres hplook hpn hfree
    rw [Dusk.Copy]
    rw [show 2 * s.nextId + 2 = (2 * s.nextId + 1) + 1 from rfl]
    simp only [Dusk.cpGo, hres, hpres, hplook]
    rw [if_neg (by simp [hpn])]
    simp only [hfree, hslook]
    rw [if_neg (by simp [hsf])]
    rfl
  · intro s src dest sid pid pn q hres hpres hplook hpn htaken
    rw [Dusk.Copy]
    rw [show 2 * s.nextId + 2 = (2 * s.nextId + 1) + 1 from rfl]
    simp only [Dusk.cpGo, hres, hpres, hplook]
    rw [if_neg (by simp [hpn])]
    simp only [htaken]

/-- C4 witness: the amended destination rules evaluated concretely.  In
sky, `cp a.txt /home` nests the copy inside `/home` as node 4 with fresh
buffer 1, and `cp a.txt b.txt` creates `b.txt` in the current directory;
in dusk, `cp f g` creates `g` next to `f` with `f`'s bytes, while
`cp f d` with `d` an existing directory fails with `file already exists`. -/
theorem c4_witness :
    (∃ s', Sky.Cp skyEcho1 (str "a.txt") (str "/home") false = Except.ok s' ∧
      (∃ d', s'.nodes.lookup 1 = some d' ∧ d'.children.lookup (str "a.txt") = some 4) ∧
      (∃ nf, s'.nodes.lookup 4 = some nf ∧ nf.name = str "a.txt" ∧
        nf.vtype = FType.RegularFile ∧ nf.content = some 1) ∧
      s'.bufs.lookup 1 = some (str "hi" ++ ['\n'])) ∧
    (∃ s', Sky.Cp skyEcho1 (str "a.txt") (str "b.txt") false = Except.ok s' ∧
      (∃ p', s'.nodes.lookup 2 = some p' ∧ p'.children.lookup (str "b.txt") = some 4) ∧
      (∃ nf, s'.nodes.lookup 4 = some nf ∧ nf.name = str "b.txt" ∧
        nf.vtype = FType.RegularFile ∧ nf.content = some 1) ∧
      s'.bufs.lookup 1 = some (str "hi" ++ ['\n'])) ∧
    Dusk.Copy duskHi (str "f") (str "g") false =
      Except.ok (({ duskHi with
          clock := duskHi.clock + 1
          nodes := duskHi.nodes ++ [(duskHi.nextId,
            (⟨goBase (str "g"), FType.RegularFile, str "hi" ++ ['\n'], [], some 2, 0,
              duskHi.clock, (str "hi" ++ ['\n']).length⟩ : VFile))]
          nextId := duskHi.nextId + 1 } : VSt).setNode 2
        { (⟨str "user", FType.Directory, [], [(str "f", 3)], some 1, 0, 2, 0⟩ : VFile) with
            children := assocSet (goBase (str "g")) duskHi.nextId [(str "f", 3)] }) ∧
    Dusk.Copy duskFD (str "f") (str "d") false =
      Except.error (str "file already exists") := by
  refine ⟨?_, ?_, ?_, ?_⟩
  · exact c4_amended.1 skyEcho1 (str "a.txt") (str "/home") 3
      ⟨str "a.txt", FType.RegularFile, some 0, [], some 2, 420, 3, 3⟩ 1
      ⟨str "home", FType.Directory, none, [(str "user", 2)], some 0, 493, 1, 0⟩
      (by decide) (by decide) (by decide) (by decide) (by decide) (by decide)
      (by decide) (by decide) (by decide)
  · exact c4_amended.2.1 skyEcho1 (str "a.txt") (str "b.txt") 3
      ⟨str "a.txt", FType.RegularFile, some 0, [], some 2, 420, 3, 3⟩
      (str "no such file or directory: b.txt") 2
      ⟨str "user", FType.Directory, none, [(str "a.txt", 3)], some 1, 493, 2, 0⟩
      (by decide) (by decide) (by decide) (by decide) (by decide) (by decide)
      (by decide) (by decide) (by decide) (by decide)
  · exact c4_amended.2.2.1 duskHi (str "f") (str "g") 3
      ⟨str "f", FType.RegularFile, str "hi" ++ ['\n'], [], some 2, 0, 4, 3⟩ 2
      ⟨str "user", FType.Directory, [], [(str "f", 3)], some 1, 0, 2, 0⟩
      (by decide) (by decide) (by decide) (by decide) (by decide) (by decide) (by decide)
  · exact c4_amended.2.2.2 duskFD (str "f") (str "d") 3 2
      ⟨str "user", FType.Directory, [], [(str "f", 3), (str "d", 4)], some 1, 0, 2, 0⟩ 4
      (by decide) (by decide) (by decide) (by decide) (by decide)

theorem mem_assocSet {α β : Type} [DecidableEq α] {k : α} {v : β} {l : List (α × β)}
    {pr : α × β} (h : pr ∈ assocSet k v l) : pr = (k, v) ∨ pr ∈ l := by
  induction l with
  | nil => simpa [assocSet] using h
  | cons p rest ih =>
    obtain ⟨k', v'⟩ := p
    by_cases hk : k' = k
    · rw [assocSet, if_pos hk] at h
      rcases List.mem_cons.mp h with h | h
      · exact Or.inl h
      · exact Or.inr (List.mem_cons_of_mem _ h)
    · rw [assocSet, if_neg hk] at h
      rcases List.mem_cons.mp h with h | h
      · exact Or.inr (h ▸ List.mem_cons_self _ _)
      · rcases ih h with h | h
        · exact Or.inl h
        · exact Or.inr (List.mem_cons_of_mem _ h)

theorem skyWFbIff (s : Sky.BSt) : Sky.WFb s = true ↔
    ((∀ pr ∈ s.nodes, pr.1 < s.nextId ∧ ∀ r, pr.2.content = some r → r < s.nextBuf) ∧
     ∀ pr ∈ s.bufs, pr.1 < s.nextBuf) := by
  rw [Sky.WFb, Bool.and_eq_true, List.all_eq_true, List.all_eq_true]
  constructor
  · rintro ⟨h1, h2⟩
    refine ⟨fun pr hm => ?_, fun pr hm => by simpa using h2 pr hm⟩
    have h3 := h1 pr hm
    rw [Bool.and_eq_true] at h3
    refine ⟨by simpa using h3.1, fun r hr => ?_⟩
    have h4 := h3.2
    rw [hr] at h4
    simpa using h4
  · rintro ⟨h1, h2⟩
    refine ⟨fun pr hm => ?_, fun pr hm => by simpa using h2 pr hm⟩
    rw [Bool.and_eq_true]
    refine ⟨by simpa using (h1 pr hm).1, ?_⟩
    cases hc : pr.2.content with
    | none => rfl
    | some r => simpa using (h1 pr hm).2 r hc

theorem skyEvolvesRefl (s : Sky.BSt) : Sky.evolves s s := by
  refine ⟨le_refl _, le_refl _, fun _ _ => rfl, fun id n h => ⟨n, h, rfl⟩, ?_⟩
  intro id n' h1 h2
  rw [h1] at h2
  cases h2

theorem skyEvolvesTrans {s t u : Sky.BSt} (h1 : Sky.evolves s t) (h2 : Sky.evolves t u) :
    Sky.evolves s u := by
  obtain ⟨ha1, hb1, hc1, hd1, he1⟩ := h1
  obtain ⟨ha2, hb2, hc2, hd2, he2⟩ := h2
  refine ⟨le_trans ha1 ha2, le_trans hb1 hb2, ?_, ?_, ?_⟩
  · intro r hr
    rw [hc2 r (lt_of_lt_of_le hr hb1), hc1 r hr]
  · intro id n h
    obtain ⟨n', hn', hcn⟩ := hd1 id n h
    obtain ⟨n'', hn'', hcn'⟩ := hd2 id n' hn'
    exact ⟨n'', hn'', hcn'.trans hcn⟩
  · intro id n' hnone hsome r hc
    cases hmid : t.nodes.lookup id with
    | none => exact le_trans hb1 (he2 id n' hmid hsome r hc)
    | some m =>
      obtain ⟨m', hm', hcm⟩ := hd2 id m hmid
      rw [hm'] at hsome
      have hnm := Option.some.inj hsome
      apply he1 id m hnone hmid r
      rw [← hcm, hnm]
      exact hc

theorem skyStepNewDir (s t : Sky.BSt) (name : Str) (p : Option Nat)
    (hwf : Sky.WFb s = true)
    (ht : t = { s with
        clock := s.clock + 1
        nodes := s.nodes ++
          [(s.nextId, (⟨name, FType.Directory, none, [], p, 493, s.clock, 0⟩ : Sky.BFile))]
        nextId := s.nextId + 1 }) :
    Sky.evolves s t ∧ Sky.WFb t = true := by
  subst ht
  obtain ⟨hn, hb⟩ := (skyWFbIff s).mp hwf
  constructor
  · refine ⟨Nat.le_succ _, le_refl _, fun _ _ => rfl, ?_, ?_⟩
    · intro id n h
      exact ⟨n, lookup_append_some _ h, rfl⟩
    · intro id n' hnone hsome r hc
      have hsome' : List.lookup id (s.nodes ++
          [(s.nextId, (⟨name, FType.Directory, none, [], p, 493, s.clock, 0⟩ : Sky.BFile))]) =
          some n' := hsome
      rw [lookup_append_none _ hnone, lookup_cons] at hsome'
      by_cases hid : id = s.nextId
      · rw [if_pos hid] at hsome'
        have := Option.some.inj hsome'
        rw [← this] at hc
        cases hc
      · rw [if_neg hid] at hsome'
        cases hsome'
  · rw [skyWFbIff]
    refine ⟨?_, fun pr hm => hb pr hm⟩
    intro pr hm
    rcases List.mem_append.mp hm with hm | hm
    · exact ⟨Nat.lt_succ_of_lt (hn pr hm).1, (hn pr hm).2⟩
    · rw [List.mem_singleton.mp hm]
      exact ⟨Nat.lt_succ_self _, fun r hr => by cases hr⟩

theorem skyStepSetNode (s t : Sky.BSt) (id : Nat) (n : Sky.BFile) (ch : List (Str × Nat))
    (hwf : Sky.WFb s = true) (hn0 : s.nodes.lookup id = some n)
    (ht : t = s.setNode id { n with children := ch }) :
    Sky.evolves s t ∧ Sky.WFb t = true := by
  subst ht
  obtain ⟨hn, hb⟩ := (skyWFbIff s).mp hwf
  constructor
  · refine ⟨le_refl _, le_refl _, fun _ _ => rfl, ?_, ?_⟩
    · intro j m h
      by_cases hj : j = id
      · subst hj
        rw [hn0] at h
        have := Option.some.inj h
        refine ⟨{ n with children := ch }, ?_, by rw [← this]⟩
        show List.lookup j (assocSet j { n with children := ch } s.nodes) = _
        exact lookup_assocSet_self _ _ _
      · refine ⟨m, ?_, rfl⟩
        show List.lookup j (assocSet id { n with children := ch } s.nodes) = _
        rw [lookup_assocSet_ne _ _ hj]
        exact h
    · intro j n' hnone hsome r hc
      by_cases hj : j = id
      · rw [hj, hn0] at hnone
        cases hnone
      · have hsome' : List.lookup j (assocSet id { n with children := ch } s.nodes) =
            some n' := hsome
        rw [lookup_assocSet_ne _ _ hj] at hsome'
        rw [hnone] at hsome'
        cases hsome'
  · rw [skyWFbIff]
    refine ⟨?_, fun pr hm => hb pr hm⟩
    intro pr hm
    have hm' : pr ∈ assocSet id { n with children := ch } s.nodes := hm
    rcases mem_assocSet hm' with h | h
    · rw [h]
      exact ⟨skyWFbNodeLt hwf hn0, fun r hr => skyWFbContentLt hwf hn0 hr⟩
    · exact hn pr h

theorem skyStepNewFile (s t : Sky.BSt) (name : Str) (p : Option Nat) (content : Str)
    (hwf : Sky.WFb s = true)
    (ht : t = { s with
        clock := s.clock + 1
        bufs := s.bufs ++ [(s.nextBuf, content)]
        nextBuf := s.nextBuf + 1
        nodes := s.nodes ++ [(s.nextId,
          (⟨name, FType.RegularFile, some s.nextBuf, [], p, 420, s.clock,
            content.length⟩ : Sky.BFile))]
        nextId := s.nextId + 1 }) :
    Sky.evolves s t ∧ Sky.WFb t = true := by
  subst ht
  obtain ⟨hn, hb⟩ := (skyWFbIff s).mp hwf
  constructor
  · refine ⟨Nat.le_succ _, Nat.le_succ _, ?_, ?_, ?_⟩
    · intro r hr
      show List.lookup r (s.bufs ++ [(s.nextBuf, content)]) = _
      cases hv : s.bufs.lookup r with
      | none =>
        rw [lookup_append_none _ hv, lookup_cons, if_neg (Nat.ne_of_lt hr)]
        rfl
      | some v => rw [lookup_append_some _ hv]
    · intro id m h
      exact ⟨m, lookup_append_some _ h, rfl⟩
    · intro id n' hnone hsome r hc
      have hsome' : List.lookup id (s.nodes ++ [(s.nextId,
          (⟨name, FType.RegularFile, some s.nextBuf, [], p, 420, s.clock,
            content.length⟩ : Sky.BFile))]) = some n' := hsome
      rw [lookup_append_none _ hnone, lookup_cons] at hsome'
      by_cases hid : id = s.nextId
      · rw [if_pos hid] at hsome'
        have := Option.some.inj hsome'
        rw [← this] at hc
        have : r = s.nextBuf := (Option.some.inj hc).symm
        rw [this]
      · rw [if_neg hid] at hsome'
        cases hsome'
  · rw [skyWFbIff]
    constructor
    · intro pr hm
      rcases List.mem_append.mp hm with hm | hm
      · exact ⟨Nat.lt_succ_of_lt (hn pr hm).1,
          fun r hr => Nat.lt_succ_of_lt ((hn pr hm).2 r hr)⟩
      · rw [List.mem_singleton.mp hm]
        refine ⟨Nat.lt_succ_self _, fun r hr => ?_⟩
        have : r = s.nextBuf := (Option.some.inj hr).symm
        rw [this]
        exact Nat.lt_succ_self _
    · intro pr hm
      rcases List.mem_append.mp hm with hm | hm
      · exact Nat.lt_succ_of_lt (hb pr hm)
      · rw [List.mem_singleton.mp hm]
        exact Nat.lt_succ_self _

theorem skyCpGoEvolves : ∀ (fuel : Nat) (s : Sky.BSt)
    (task : Sum (Nat × Nat × Str) (List (Str × Nat) × Nat)) (s' : Sky.BSt),
    Sky.WFb s = true → Sky.cpGo fuel s task = Except.ok s' →
    Sky.evolves s s' ∧ Sky.WFb s' = true := by
  intro fuel
  induction fuel with
  | zero =>
    intro s task s' _ h
    exact absurd h (by simp [Sky.cpGo])
  | succ fuel ih =>
    rintro s (⟨srcId, dpId, destName⟩ | ⟨cs, ndid⟩) s' hwf h
    · simp only [Sky.cpGo, Sky.NewDirectory, Sky.BSt.tick] at h
      split at h
      · exact absurd h (by simp)
      · rename_i dp hdp
        split at h
        · exact absurd h (by simp)
        · rename_i srcDir hsrc
          obtain ⟨hev1, hwf1⟩ := skyStepNewDir s
            { s with
                clock := s.clock + 1
                nodes := s.nodes ++ [(s.nextId,
                  (⟨destName, FType.Directory, none, [], some dpId, 493, s.clock,
                    0⟩ : Sky.BFile))]
                nextId := s.nextId + 1 }
            destName (some dpId) hwf rfl
          obtain ⟨hev2, hwf2⟩ := skyStepSetNode
            { s with
                clock := s.clock + 1
                nodes := s.nodes ++ [(s.nextId,
                  (⟨destName, FType.Directory, none, [], some dpId, 493, s.clock,
                    0⟩ : Sky.BFile))]
                nextId := s.nextId + 1 }
            (({ s with
                clock := s.clock + 1
                nodes := s.nodes ++ [(s.nextId,
                  (⟨destName, FType.Directory, none, [], some dpId, 493, s.clock,
                    0⟩ : Sky.BFile))]
                nextId := s.nextId + 1 } : Sky.BSt).setNode dpId
              { dp with children := assocSet destName s.nextId dp.children })
            dpId dp (assocSet destName s.nextId dp.children) hwf1 hdp rfl
          obtain ⟨hev3, hwf3⟩ := ih _ (Sum.inr (srcDir.children, s.nextId)) s' hwf2 h
          exact ⟨skyEvolvesTrans (skyEvolvesTrans hev1 hev2) hev3, hwf3⟩
    · match cs with
      | [] =>
        simp only [Sky.cpGo] at h
        rw [← Except.ok.inj h]
        exact ⟨skyEvolvesRefl s, hwf⟩
      | (cname, cid) :: rest =>
        simp only [Sky.cpGo, Sky.NewFile, Sky.BSt.allocBuf, Sky.BSt.tick] at h
        split at h
        · exact absurd h (by simp)
        · rename_i c hc
          split at h
          · rename_i hdir
            split at h
            · exact absurd h (by simp)
            · rename_i s₁ hs₁
              obtain ⟨hevA, hwfA⟩ := ih s (Sum.inl (cid, ndid, cname)) s₁ hwf hs₁
              obtain ⟨hevB, hwfB⟩ := ih s₁ (Sum.inr (rest, ndid)) s' hwfA h
              exact ⟨skyEvolvesTrans hevA hevB, hwfB⟩
          · rename_i hdir
            split at h
            · exact absurd h (by simp)
            · rename_i nd hnd
              obtain ⟨hev1, hwf1⟩ := skyStepNewFile s
                { s with
                    clock := s.clock + 1
                    bufs := s.bufs ++ [(s.nextBuf, Sky.contentStr s c.content)]
                    nextBuf := s.nextBuf + 1
                    nodes := s.nodes ++ [(s.nextId,
                      (⟨cname, FType.RegularFile, some s.nextBuf, [], some ndid, 420, s.clock,
                        (Sky.contentStr s c.content).length⟩ : Sky.BFile))]
                    nextId := s.nextId + 1 }
                cname (some ndid) (Sky.contentStr s c.content) hwf rfl
              obtain ⟨hev2, hwf2⟩ := skyStepSetNode
                { s with
                    clock := s.clock + 1
                    bufs := s.bufs ++ [(s.nextBuf, Sky.contentStr s c.content)]
                    nextBuf := s.nextBuf + 1
                    nodes := s.nodes ++ [(s.nextId,
                      (⟨cname, FType.RegularFile, some s.nextBuf, [], some ndid, 420, s.clock,
                        (Sky.contentStr s c.content).length⟩ : Sky.BFile))]
                    nextId := s.nextId + 1 }
                (({ s with
                    clock := s.clock + 1
                    bufs := s.bufs ++ [(s.nextBuf, Sky.contentStr s c.content)]
                    nextBuf := s.nextBuf + 1
                    nodes := s.nodes ++ [(s.nextId,
                      (⟨cname, FType.RegularFile, some s.nextBuf, [], some ndid, 420, s.clock,
                        (Sky.contentStr s c.content).length⟩ : Sky.BFile))]
                    nextId := s.nextId + 1 } : Sky.BSt).setNode ndid
                  { nd with children := assocSet cname s.nextId nd.children })
                ndid nd (assocSet cname s.nextId nd.children) hwf1 hnd rfl
              obtain ⟨hev3, hwf3⟩ := ih _ (Sum.inr (rest, ndid)) s' hwf2 h
              exact ⟨skyEvolvesTrans (skyEvolvesTrans hev1 hev2) hev3, hwf3⟩

theorem skyCpContEvolves (s : Sky.BSt) (source : Str) (sid dpId : Nat) (dName : Str)
    (rec : Bool) (s' : Sky.BSt) (hwf : Sky.WFb s = true)
    (h : (match List.lookup sid s.nodes with
          | none => Except.error (str "DANGLING_POINTER")
          | some snode =>
            if snode.vtype = FType.RegularFile then
              match Sky.NewFile s dName (some dpId) (Sky.contentStr s snode.content) with
              | (nfid, s₁) =>
                match List.lookup dpId s₁.nodes with
                | none => Except.error (str "DANGLING_POINTER")
                | some dp =>
                  Except.ok (s₁.setNode dpId
                    { dp with children := assocSet dName nfid dp.children })
            else if !rec then Except.error (str "cp: omitting directory " ++ source)
            else Sky.copyRecursive (2 * s.nextId + 2) s sid dpId dName) = Except.ok s') :
    Sky.evolves s s' ∧ Sky.WFb s' = true := by
  split at h
  · exact absurd h (by simp)
  · rename_i snode hsn
    split at h
    · rename_i hft
      simp only [Sky.NewFile, Sky.BSt.allocBuf, Sky.BSt.tick] at h
      split at h
      · exact absurd h (by simp)
      · rename_i dp hdp
        obtain ⟨hev1, hwf1⟩ := skyStepNewFile s
          { s with
              clock := s.clock + 1
              bufs := s.bufs ++ [(s.nextBuf, Sky.contentStr s snode.content)]
              nextBuf := s.nextBuf + 1
              nodes := s.nodes ++ [(s.nextId,
                (⟨dName, FType.RegularFile, some s.nextBuf, [], some dpId, 420, s.clock,
                  (Sky.contentStr s snode.content).length⟩ : Sky.BFile))]
              nextId := s.nextId + 1 }
          dName (some dpId) (Sky.contentStr s snode.content) hwf rfl
        obtain ⟨hev2, hwf2⟩ := skyStepSetNode
          { s with
              clock := s.clock + 1
              bufs := s.bufs ++ [(s.nextBuf, Sky.contentStr s snode.content)]
              nextBuf := s.nextBuf + 1
              nodes := s.nodes ++ [(s.nextId,
                (⟨dName, FType.RegularFile, some s.nextBuf, [], some dpId, 420, s.clock,
                  (Sky.contentStr s snode.content).length⟩ : Sky.BFile))]
              nextId := s.nextId + 1 }
          (({ s with
              clock := s.clock + 1
              bufs := s.bufs ++ [(s.nextBuf, Sky.contentStr s snode.content)]
              nextBuf := s.nextBuf + 1
              nodes := s.nodes ++ [(s.nextId,
                (⟨dName, FType.RegularFile, some s.nextBuf, [], some dpId, 420, s.clock,
                  (Sky.contentStr s snode.content).length⟩ : Sky.BFile))]
              nextId := s.nextId + 1 } : Sky.BSt).setNode dpId
            { dp with children := assocSet dName s.nextId dp.children })
          dpId dp (assocSet dName s.nextId dp.children) hwf1 hdp rfl
        rw [← Except.ok.inj h]
        exact ⟨skyEvolvesTrans hev1 hev2, hwf2⟩
    · rename_i hft
      split at h
      · exact absurd h (by simp)
      · rw [Sky.copyRecursive] at h
        exact skyCpGoEvolves _ s _ s' hwf h

theorem skyCpEvolves (s : Sky.BSt) (source dest : Str) (rec : Bool) (s' : Sky.BSt)
    (hwf : Sky.WFb s = true) (h : Sky.Cp s source dest rec = Except.ok s') :
    Sky.evolves s s' ∧ Sky.WFb s' = true := by
  simp only [Sky.Cp] at h
  split at h
  · exact absurd h (by simp)
  · split at h
    · exact absurd h (by simp)
    · rename_i sid hres
      split at h
      · exact absurd h (by simp)
      · rename_i dpId dName heq
        exact skyCpContEvolves s source sid dpId dName rec s' hwf h

/-- C5 (confirmed): `cp` performs a deep copy in the sonoma-sky-alpha
variant (the one whose buffer heap models Go slice aliasing).  Every
successful `Cp` — file copies and recursive directory copies alike —
produces a state that `evolves` the old heap: the bytes of every
pre-existing buffer are untouched, every pre-existing node keeps its
content reference, and every newly created node (the copy and all its
descendants) refers only to freshly allocated buffers.  Consequently,
for any new node and any pre-existing node, overwriting the bytes behind
the copy's content reference leaves the bytes behind the source's content
reference unchanged, and vice versa. -/
theorem c5_deep_copy (s : Sky.BSt) (source dest : Str) (rec : Bool) (s' : Sky.BSt)
    (hwf : Sky.WFb s = true) (hcp : Sky.Cp s source dest rec = Except.ok s') :
    Sky.evolves s s' ∧
    ∀ id nf r jd n q, s.nodes.lookup id = none → s'.nodes.lookup id = some nf →
      nf.content = some r → s.nodes.lookup jd = some n → n.content = some q →
      (∀ v, Sky.contentStr (s'.setBuf r v) (some q) = Sky.contentStr s' (some q)) ∧
      (∀ w, Sky.contentStr (s'.setBuf q w) (some r) = Sky.contentStr s' (some r)) := by
  obtain ⟨hev, hwf'⟩ := skyCpEvolves s source dest rec s' hwf hcp
  refine ⟨hev, ?_⟩
  intro id nf r jd n q hnone hsome hr hjd hq
  have hqlt : q < s.nextBuf := skyWFbContentLt hwf hjd hq
  have hrge : s.nextBuf ≤ r := hev.2.2.2.2 id nf hnone hsome r hr
  have hne : q ≠ r := fun hqr => absurd (hqr ▸ hqlt) (not_lt.mpr hrge)
  constructor
  · intro v
    simp only [Sky.contentStr]
    rw [skySetBufBufs, lookup_assocSet_ne _ _ hne]
  · intro w
    simp only [Sky.contentStr]
    rw [skySetBufBufs, lookup_assocSet_ne _ _ (Ne.symm hne)]

/-- C5 witness: after `echo hi > a.txt; cp a.txt b.txt` in the sky
variant, the copy `b.txt` (node 4) reads through fresh buffer 1 while the
source `a.txt` (node 3) still reads through buffer 0; overwriting either
buffer leaves the bytes read through the other reference unchanged. -/
theorem c5_witness :
    Sky.evolves skyEcho1 skyCp1 ∧
    Sky.contentStr (skyCp1.setBuf 1 (str "ZZ")) (some 0) = Sky.contentStr skyCp1 (some 0) ∧
    Sky.contentStr (skyCp1.setBuf 0 (str "QQ")) (some 1) = Sky.contentStr skyCp1 (some 1) := by
  have h := c5_deep_copy skyEcho1 (str "a.txt") (str "b.txt") false skyCp1
    (by decide) (by decide)
  have h2 := h.2 4 ⟨str "b.txt", FType.RegularFile, some 1, [], some 2, 420, 4, 3⟩ 1
    3 ⟨str "a.txt", FType.RegularFile, some 0, [], some 2, 420, 3, 3⟩ 0
    (by decide) (by decide) (by decide) (by decide) (by decide)
  exact ⟨h.1, h2.1 (str "ZZ"), h2.2 (str "QQ")⟩
